import Mathlib

/-!
Shallow embedding of the transaction-interpretation engine of
`src/services/suiService.ts` (Sui transaction explainer).

The JavaScript string primitives used by the source (`includes`, `split`,
`replace` of the first occurrence, `toLowerCase`, `toUpperCase`, `trim`,
`startsWith`, `slice`, `toFixed`) are modelled structurally over `List Char`
so that every definition kernel-reduces on concrete inputs.  JavaScript
numbers are modelled by `Int` (raw native-unit amounts, exact in the ranges
the engine handles) and `Rat` (amounts after decimal scaling).
-/

set_option maxRecDepth 4000

/-- Boolean test that the list `p` is an initial segment of `l`
(the character-list core of JavaScript `String.startsWith`). -/
def listStartsWith : List Char → List Char → Bool
  | [], _ => true
  | _ :: _, [] => false
  | a :: as, b :: bs => a == b && listStartsWith as bs

/-- Boolean substring test on character lists: does `hay` contain `pat`
as a contiguous run (JavaScript `String.includes`)? -/
def charsContain (pat : List Char) : List Char → Bool
  | [] => pat.isEmpty
  | h :: t => listStartsWith pat (h :: t) || charsContain pat t

/-- JavaScript `hay.includes(pat)`. -/
def strContains (hay pat : String) : Bool :=
  charsContain pat.data hay.data

/-- JavaScript `s.startsWith(p)`. -/
def strStartsWith (s p : String) : Bool :=
  listStartsWith p.data s.data

/-- Replace the first occurrence of `pat` by `repl` in a character list
(JavaScript `String.replace` with a plain-string pattern). -/
def replaceFirstChars (pat repl : List Char) : List Char → List Char
  | [] => if pat.isEmpty then repl else []
  | h :: t =>
    if listStartsWith pat (h :: t) then repl ++ List.drop pat.length (h :: t)
    else h :: replaceFirstChars pat repl t

/-- JavaScript `s.replace(pat, repl)` (first occurrence only). -/
def replaceFirst (s pat repl : String) : String :=
  String.mk (replaceFirstChars pat.data repl.data s.data)

/-- Fuel-indexed splitter over character lists; the fuel is always taken
one larger than the input length, so the fallback first branch is never
reached on the intended calls. -/
def splitChars (sep : List Char) : Nat → List Char → List Char → List (List Char)
  | 0, rest, acc => [acc.reverse ++ rest]
  | _ + 1, [], acc => [acc.reverse]
  | fuel + 1, h :: t, acc =>
    if !sep.isEmpty && listStartsWith sep (h :: t) then
      acc.reverse :: splitChars sep fuel (List.drop sep.length (h :: t)) []
    else
      splitChars sep fuel t (h :: acc)

/-- JavaScript `s.split(sep)` for a non-empty separator. -/
def strSplitOn (s sep : String) : List String :=
  (splitChars sep.data (s.data.length + 1) s.data []).map String.mk

/-- JavaScript `s.toLowerCase()` (ASCII, as used by the source's patterns). -/
def strToLower (s : String) : String :=
  String.mk (s.data.map Char.toLower)

/-- JavaScript `s.toUpperCase()`. -/
def strToUpper (s : String) : String :=
  String.mk (s.data.map Char.toUpper)

/-- JavaScript `s.trim()`. -/
def strTrim (s : String) : String :=
  String.mk (((s.data.dropWhile Char.isWhitespace).reverse.dropWhile Char.isWhitespace).reverse)

/-- JavaScript `a || b` on strings (empty string is falsy). -/
def strOr (a b : String) : String :=
  if a = "" then b else a

/-- JavaScript `opt || dflt` where `opt` may be absent (`undefined`) or empty. -/
def strOrDefault (o : Option String) (dflt : String) : String :=
  match o with
  | some s => strOr s dflt
  | none => dflt

/-- Truthiness of an optional string field, as JavaScript sees it:
present and non-empty. -/
def truthyOpt (o : Option String) : Bool :=
  match o with
  | some s => !(s = "")
  | none => false

/-- Concatenate a list of strings with a separator (JavaScript `Array.join`). -/
def strJoin (sep : String) : List String → String
  | [] => ""
  | [x] => x
  | x :: xs => x ++ sep ++ strJoin sep xs

/-- Strip a trailing run of digits together with surrounding whitespace,
the effect of the source's `name.replace(/\s*\d+\s*$/, '')`. -/
def stripTrailingNumber (s : String) : String :=
  let r := s.data.reverse
  let r1 := r.dropWhile Char.isWhitespace
  let r2 := r1.dropWhile Char.isDigit
  if r1.length = r2.length then s
  else String.mk ((r2.dropWhile Char.isWhitespace).reverse)

/-- Left-pad a digit string with zeros up to width `n`. -/
def padZeros (s : String) (n : Nat) : String :=
  String.mk (List.replicate (n - s.length) '0') ++ s

/-- Exact model of the JavaScript numbers the engine computes with: a
fraction with integer numerator and positive denominator (denominators are
always products of powers of ten here, so no normalization is needed).
The source's floating-point values are idealized as exact rationals. -/
structure JsNum where
  num : Int
  den : Nat
deriving DecidableEq, Repr

/-- Scale a raw native-unit integer amount down by `10 ^ d`
(JavaScript `amount / Math.pow(10, decimals)`). -/
def jsDivPow10 (a : Int) (d : Nat) : JsNum :=
  ⟨a, 10 ^ d⟩

/-- JavaScript `Math.abs`. -/
def jsAbs (x : JsNum) : JsNum :=
  ⟨(x.num.natAbs : Int), x.den⟩

/-- Exact subtraction of two fractions. -/
def jsSub (x y : JsNum) : JsNum :=
  ⟨x.num * (y.den : Int) - y.num * (x.den : Int), x.den * y.den⟩

/-- Exact multiplication of two fractions (used for `0.01 * sendAmount`). -/
def jsMul (x y : JsNum) : JsNum :=
  ⟨x.num * y.num, x.den * y.den⟩

/-- Exact strict comparison of two fractions (valid because denominators
are always positive). -/
def jsLt (x y : JsNum) : Bool :=
  x.num * (y.den : Int) < y.num * (x.den : Int)

/-- Is the value strictly positive? -/
def jsPos (x : JsNum) : Bool :=
  0 < x.num

/-- JavaScript `x.toFixed(digits)`: round half away from zero at the
requested scale and render with a fixed number of fractional digits. -/
def jsToFixed (x : JsNum) (digits : Nat) : String :=
  let sign := if x.num < 0 then "-" else ""
  let n := x.num.natAbs * 10 ^ digits
  let scaled := (2 * n + x.den) / (2 * x.den)
  let ip := scaled / 10 ^ digits
  let fp := scaled % 10 ^ digits
  if digits = 0 then sign ++ toString ip
  else sign ++ toString ip ++ "." ++ padZeros (toString fp) digits

/-- The `\x7b\x7b...\x7d\x7d` entity marker the renderers wrap around every
entity reference. -/
def mark (s : String) : String :=
  "\x7b\x7b" ++ s ++ "\x7d\x7d"

/-- Plural suffix `${count > 1 ? 's' : ''}`. -/
def plural (n : Nat) : String :=
  if 1 < n then "s" else ""

/-- Lookup in an insertion-ordered association list (JavaScript `Map.get`). -/
def assocGet {α : Type} (m : List (String × α)) (k : String) : Option α :=
  (m.find? (fun e => e.1 == k)).map (fun e => e.2)

/-- JavaScript `Map.set`: update in place if the key exists, else append. -/
def assocSet (m : List (String × String)) (k v : String) : List (String × String) :=
  match m with
  | [] => [(k, v)]
  | (k', v') :: t => if k' == k then (k, v) :: t else (k', v') :: assocSet t k v

/-!
Data model: the shapes of the raw transaction block as the engine reads
them, restricted to the fields the engine actually accesses.
-/

/-- The owner field of a raw object change or balance change, a tagged
union mirroring the shapes the source's `formatOwner` / `getFullAddress`
distinguish: absent, a bare address string, `\x7bAddressOwner\x7d`,
`\x7bObjectOwner\x7d`, `\x7bShared\x7d`, `\x7bImmutable\x7d`. -/
inductive RawOwner where
  | missing
  | str (s : String)
  | addressOwner (a : String)
  | objectOwner (a : String)
  | shared
  | immutable
deriving DecidableEq, Repr

/-- JavaScript truthiness of the owner value itself (an absent value and
the empty string are falsy; every object is truthy). -/
def ownerTruthy : RawOwner → Bool
  | RawOwner.missing => false
  | RawOwner.str s => !(s = "")
  | _ => true

/-- The `type` discriminator of a raw object-change record. -/
inductive ChangeKind where
  | created
  | deleted
  | mutated
  | transferred
  | other
deriving DecidableEq, Repr, BEq

/-- One raw object-change record of the transaction block. -/
structure RawObjectChange where
  kind : ChangeKind
  objectId : String := ""
  objectType : Option String := none
  version : String := ""
  digest : String := ""
  owner : RawOwner := RawOwner.missing
  sender : RawOwner := RawOwner.missing
  recipient : RawOwner := RawOwner.missing
deriving DecidableEq, Repr

/-- One raw balance-change record (`coinType`, `amount`, `owner`).  The
amount string of the source is parsed to an exact integer. -/
structure BalanceChangeRec where
  coinType : Option String := none
  amount : Int := 0
  owner : RawOwner := RawOwner.missing
deriving DecidableEq, Repr

/-- The address behind a balance-change owner: `change.owner?.AddressOwner`,
with JavaScript truthiness (an empty string is falsy). -/
def addrOwnerOf : RawOwner → Option String
  | RawOwner.addressOwner a => if a = "" then none else some a
  | _ => none

/-- The effective coin type of a balance change:
`change.coinType || '0x2::sui::SUI'`. -/
def effCoinType (bc : BalanceChangeRec) : String :=
  strOrDefault bc.coinType "0x2::sui::SUI"

/-- One programmable-transaction command; the engine only looks at
`MoveCall` commands. -/
inductive TxCommand where
  | moveCall (pkg moduleName fn : String)
  | other
deriving DecidableEq, Repr

/-- The `display.data` record of an enriched object (the engine reads four
of its fields; mere presence of the record is what `isNFTObject` tests). -/
structure DisplayData where
  name : Option String := none
  description : Option String := none
  image_url : Option String := none
  img_url : Option String := none
deriving DecidableEq, Repr

/-- The `content.fields` record of an enriched object: the named fields
the engine reads, plus the remaining fields (string-valued here, absent
standing for null) from which NFT attributes are built. -/
structure ContentFields where
  name : Option String := none
  description : Option String := none
  image_url : Option String := none
  url : Option String := none
  balance : Option Int := none
  extra : List (String × Option String) := []
deriving DecidableEq, Repr

/-- Supplemental per-object data returned by the object-lookup
collaborator (`data.display.data` and `data.content.fields`). -/
structure EnrichedObject where
  display : Option DisplayData := none
  contentFields : Option ContentFields := none
deriving DecidableEq, Repr

/-- Gas accounting fields of the transaction effects, exact integers. -/
structure GasUsed where
  computationCost : Int
  storageCost : Int
  storageRebate : Int
deriving DecidableEq, Repr

/-- Transaction effects: gas plus execution status. -/
structure Effects where
  gasUsed : Option GasUsed := none
  status : Option String := none
deriving DecidableEq, Repr

/-- The raw transaction block as fetched, along with the enrichment map
attached by the enrichment orchestrator. -/
structure TxBlock where
  digest : String := ""
  timestampMs : Option Int := none
  sender : Option String := none
  effects : Option Effects := none
  objectChanges : List RawObjectChange := []
  balanceChanges : List BalanceChangeRec := []
  commands : List TxCommand := []
  enrichedObjects : List (String × EnrichedObject) := []
deriving DecidableEq, Repr

/-!
Token registry (`getTokenInfoFromType`) and coin info (`extractCoinInfo`).
-/

/-- A display symbol together with its decimal precision. -/
structure TokenInfo where
  symbol : String
  decimals : Nat
deriving DecidableEq, Repr

/-- The static table of well-known fungible types of the source. -/
def tokenTable (coinType : String) : Option TokenInfo :=
  if coinType = "0x2::sui::SUI" then some ⟨"SUI", 9⟩
  else if coinType = "0x5d4b302506645c37ff133b98c4b50a5ae14841659738d6d733d59d0d217a93bf::coin::COIN" then some ⟨"USDC", 6⟩
  else if coinType = "0xdba34672e30cb065b1f93e3ab55318768fd6fef66c15942c9f7cb846e2f900e7::usdc::USDC" then some ⟨"USDC", 6⟩
  else if coinType = "0xc060006111016b8a020ad5b33834984a437aaa7d3c74c18e09a95d48aceab08c::coin::COIN" then some ⟨"USDT", 6⟩
  else if coinType = "0xaf8cd5edc19c4512f4259f0bee101a40d41ebed738ade5874359610ef8eeced5::coin::COIN" then some ⟨"WETH", 8⟩
  else none

/-- The heuristic symbol derivation on a table miss: last `::` segment
uppercased (defaulting to TOKEN when empty), first occurrence of `_TOKEN`
then of `TOKEN` removed, defaulting to TOKEN when the result is empty. -/
def deriveTokenSymbol (coinType : String) : String :=
  let lastPart := strOr (strToUpper ((strSplitOn coinType "::").getLastD "")) "TOKEN"
  strOr (replaceFirst (replaceFirst lastPart "_TOKEN" "") "TOKEN" "") "TOKEN"

/-- Token Registry resolve: static table first, else derived symbol with
decimals defaulting to 6. -/
def getTokenInfoFromType (coinType : String) : TokenInfo :=
  match tokenTable coinType with
  | some ti => ti
  | none => { symbol := deriveTokenSymbol coinType, decimals := 6 }

/-- Everything after the first occurrence of `pat`, or `none` when `pat`
does not occur. -/
def charsAfterFirst (pat : List Char) : List Char → Option (List Char)
  | [] => if pat.isEmpty then some [] else none
  | h :: t =>
    if listStartsWith pat (h :: t) then some (List.drop pat.length (h :: t))
    else charsAfterFirst pat t

/-- The prefix of `l` before the last occurrence of the character `c`, or
`none` when `c` does not occur. -/
def charsBeforeLast (c : Char) (l : List Char) : Option (List Char) :=
  match l.reverse.dropWhile (fun x => !(x == c)) with
  | [] => none
  | _ :: restRev => some restRev.reverse

/-- The capture of the source's regular expression match on
`/Coin<(.+)>/`: everything strictly between the first occurrence of
`Coin<` and the last closing `>` after it, provided it is non-empty. -/
def extractCoinInner (coinType : String) : Option String :=
  match charsAfterFirst "Coin<".data coinType.data with
  | none => none
  | some rest =>
    match charsBeforeLast '>' rest with
    | none => none
    | some cap => if cap.isEmpty then none else some (String.mk cap)

/-- Amount/symbol/decimals extracted for a fungible-coin transfer. -/
structure CoinInfo where
  amount : Option Int := none
  symbol : String
  decimals : Nat
deriving DecidableEq, Repr

/-- Coin information of a transfer: parse the inner type out of
`Coin<...>`, resolve it through the token registry, and read the balance
from the enriched content when present. -/
def extractCoinInfo (coinType : String) (objectData : Option EnrichedObject) : CoinInfo :=
  match extractCoinInner coinType with
  | none => { amount := none, symbol := "Unknown", decimals := 9 }
  | some innerType =>
    let ti := getTokenInfoFromType innerType
    let amount := match objectData with
      | some od => (od.contentFields.bind (fun c => c.balance))
      | none => none
    { amount := amount, symbol := ti.symbol, decimals := ti.decimals }

/-!
Asset classifier (`isNFTObject`) and display-metadata extraction
(`extractNFTMetadata`).
-/

/-- The curated NFT naming-convention substrings of the source. -/
def nftPatterns : List String :=
  ["::nft::", "::NFT::", "::collectible::", "::asset::", "::token::Token",
   "::item::", "::agent::", "::character::", "::card::", "::badge::",
   "::license::", "::License"]

/-- The source's asset classifier: decides whether an object is a
non-fungible asset from its type identifier and optional enriched data.
The checks run in source order: coin pattern excludes first, then
dynamic-field bookkeeping, then display metadata, then the `nft`
substring, then the curated patterns, then descriptive content fields. -/
def isNFTObject (objectType : Option String) (objectData : Option EnrichedObject) : Bool :=
  match objectType with
  | none => false
  | some t =>
    if t = "" then false
    else if strContains t "coin::Coin" then false
    else if strContains t "::dynamic_field::" || strContains t "::dynamic_object_field::" then false
    else if (objectData.bind (fun od => od.display)).isSome then true
    else if strContains (strToLower t) "nft" then true
    else if nftPatterns.any (fun p => strContains t p) then true
    else
      match objectData.bind (fun od => od.contentFields) with
      | some c =>
        if truthyOpt c.name || truthyOpt c.image_url || truthyOpt c.url || truthyOpt c.description then
          if strContains t "::dynamic_field::" then false else true
        else false
      | none => false

/-- Extracted non-fungible display metadata. -/
structure NFTMetadata where
  name : String
  description : Option String := none
  imageUrl : Option String := none
  attributes : Option (List (String × String)) := none
deriving DecidableEq, Repr

/-- JavaScript `a || b` over optional strings: the first truthy operand,
else the second operand as-is. -/
def orFalsy (a b : Option String) : Option String :=
  if truthyOpt a then a else b

/-- The fixed denylist of technical field names excluded from attributes. -/
def excludedFields : List String :=
  ["id", "name", "description", "image_url", "img_url", "url",
   "value", "balance", "type", "owner", "version", "digest"]

/-- Attribute map built from the remaining content fields: denylisted
keys, null values, empty strings and strings of length 100 or more are
dropped; later duplicate keys overwrite in place. -/
def buildAttributes (extra : List (String × Option String)) : List (String × String) :=
  extra.foldl (fun acc e =>
    match e.2 with
    | none => acc
    | some v =>
      if excludedFields.contains (strToLower e.1) then acc
      else if v = "" then acc
      else if 100 ≤ v.length then acc
      else assocSet acc e.1 v) []

/-- Display-metadata extraction: name defaults to NFT, description and
image resolved display-first, attributes built from content fields. -/
def extractNFTMetadata (objectData : Option EnrichedObject) : Option NFTMetadata :=
  match objectData with
  | none => none
  | some od =>
    let display := od.display
    let content := od.contentFields
    if display.isNone && content.isNone then none
    else some
      { name := strOrDefault (orFalsy (display.bind (fun d => d.name)) (content.bind (fun c => c.name))) "NFT"
        description := orFalsy (display.bind (fun d => d.description)) (content.bind (fun c => c.description))
        imageUrl := orFalsy (display.bind (fun d => d.image_url))
          (orFalsy (display.bind (fun d => d.img_url))
            (orFalsy (content.bind (fun c => c.image_url)) (content.bind (fun c => c.url))))
        attributes := content.map (fun c => buildAttributes c.extra) }

/-!
Owner formatting, address truncation and the address labeler.
-/

/-- Shorten an address for display: addresses of at most 12 characters
are returned unchanged, longer ones as first 6, ellipsis, last 4. -/
def truncateAddress (address : String) : String :=
  if address.length ≤ 12 then address
  else String.mk (address.data.take 6 ++ "...".data ++ (address.data.reverse.take 4).reverse)

/-- Human-oriented owner descriptor string. -/
def formatOwner : RawOwner → String
  | RawOwner.missing => "Unknown"
  | RawOwner.str s => if s = "" then "Unknown" else truncateAddress s
  | RawOwner.addressOwner a => if a = "" then "Unknown" else truncateAddress a
  | RawOwner.objectOwner a => if a = "" then "Unknown" else "Object(" ++ truncateAddress a ++ ")"
  | RawOwner.shared => "Shared"
  | RawOwner.immutable => "Immutable"

/-- The raw address behind an owner value (object owners yield the owning
object's identifier unwrapped; shared and immutable owners yield their
sentinel strings). -/
def getFullAddress : RawOwner → String
  | RawOwner.missing => "Unknown"
  | RawOwner.str s => if s = "" then "Unknown" else s
  | RawOwner.addressOwner a => if a = "" then "Unknown" else a
  | RawOwner.objectOwner a => if a = "" then "Unknown" else a
  | RawOwner.shared => "Shared"
  | RawOwner.immutable => "Immutable"

/-- The ten pseudonym letters. -/
def userLabels : List String :=
  ["A", "B", "C", "D", "E", "F", "G", "H", "I", "J"]

/-- The pseudonym drawn for the `i`-th newly encountered address. -/
def userLabelString (i : Nat) : String :=
  "User " ++ userLabels.getD i ""

/-- The sentinel owner descriptors the labeler passes through unchanged. -/
def isSentinel (a : String) : Bool :=
  a = "Unknown" || a = "Shared" || a = "Immutable" || strStartsWith a "Object("

/-- State of the address labeler: the insertion-ordered address-to-label
map together with the next free pseudonym index. -/
structure LabelState where
  assoc : List (String × String) := []
  userIndex : Nat := 0
deriving DecidableEq, Repr

/-- One labeling step (`getOrCreateUserLabel`): sentinels are returned
unchanged without touching the state; known addresses return their label;
new addresses receive the next pseudonym while the alphabet lasts, then a
truncated-address fallback (also recorded in the map). -/
def getOrCreateUserLabel (st : LabelState) (address : String) : LabelState × String :=
  if isSentinel address then (st, address)
  else
    match assocGet st.assoc address with
    | some l => (st, l)
    | none =>
      if st.userIndex < userLabels.length then
        let l := "User " ++ userLabels.getD st.userIndex ""
        (⟨st.assoc ++ [(address, l)], st.userIndex + 1⟩, l)
      else
        let l := truncateAddress address
        (⟨st.assoc ++ [(address, l)], st.userIndex⟩, l)

/-- Run the labeler over a visitation sequence of addresses. -/
def processAddresses (addrs : List String) : LabelState :=
  addrs.foldl (fun st a => (getOrCreateUserLabel st a).1) ⟨[], 0⟩

/-- Label lookup used by the three renderers: `Unknown` and the empty
address map to `Unknown`, mapped addresses to their label, anything else
to the truncated address. -/
def getUserLabel (m : List (String × String)) (address : String) : String :=
  if address = "" || address = "Unknown" then "Unknown"
  else
    match assocGet m address with
    | some l => l
    | none => truncateAddress address

/-!
Normalized change records and the shared renderer input.
-/

/-- A canonical created / deleted / mutated object record. -/
structure ObjectChangeRec where
  objectId : String := ""
  objectType : String := "Unknown"
  version : String := ""
  digest : String := ""
  owner : Option String := none
  fullOwnerAddress : Option String := none
  isNFT : Bool := false
  nftMetadata : Option NFTMetadata := none
deriving DecidableEq, Repr

/-- A canonical transfer record.  `fromStr` and `toStr` are the formatted
owner descriptors of source and destination. -/
structure TransferRec where
  objectId : String := ""
  objectType : String := "Unknown"
  fromStr : String := "Unknown"
  toStr : String := "Unknown"
  version : String := ""
  amount : Option Int := none
  tokenSymbol : Option String := none
  tokenDecimals : Option Nat := none
  isNFT : Bool := false
  nftMetadata : Option NFTMetadata := none
deriving DecidableEq, Repr

/-- An extracted contract call. -/
structure PackageCall where
  pkg : String := ""
  moduleName : String := ""
  fn : String := ""
  displayName : String := ""
deriving DecidableEq, Repr

/-- Short display name of a type identifier: NFT when the classifier says
so from the type alone, the registry symbol plus Coin for coins, else the
last path segment with generic parameters cut off. -/
def extractTypeName (fullType : String) : String :=
  if fullType = "" then "Object"
  else if isNFTObject (some fullType) none then "NFT"
  else if strContains fullType "coin::Coin" then
    (extractCoinInfo fullType none).symbol ++ " Coin"
  else
    strOr ((strSplitOn ((strSplitOn fullType "::").getLastD "") "<").headD "") "Object"

/-- The data record handed to the three renderers (the source passes the
relevant subset of these fields to each renderer). -/
structure SummaryInput where
  sender : String := "Unknown"
  objectsCreated : List ObjectChangeRec := []
  objectsDeleted : List ObjectChangeRec := []
  objectsMutated : List ObjectChangeRec := []
  objectsTransferred : List TransferRec := []
  packageCalls : List PackageCall := []
  balanceChanges : List BalanceChangeRec := []
  addressToUser : List (String × String) := []
  rawObjectChanges : List RawObjectChange := []
deriving DecidableEq, Repr

/-- The metadata name of a record, empty when metadata is absent
(`nftMetadata?.name || ''`). -/
def mdName (md : Option NFTMetadata) : String :=
  match md with
  | some m => m.name
  | none => ""

/-- Display name of an NFT (`nftMetadata?.name || 'NFT'`). -/
def nftNameStr (md : Option NFTMetadata) : String :=
  strOr (mdName md) "NFT"

/-- The relevance filter: an NFT with no name, an unknown-ish name, or a
temporary/placeholder type is excluded from narration. -/
def isRelevantNFT (name objectType : String) : Bool :=
  if name = "" || strContains (strToLower name) "unknown" then false
  else if strContains (strToLower objectType) "temp" || strContains (strToLower objectType) "placeholder" then false
  else true

/-- Collection-name derivation from a display name: part before the first
hash sign, else the name without its trailing number, else the trimmed
name. -/
def deriveCollectionName (name : String) : String :=
  strOr (strTrim ((strSplitOn name "#").headD ""))
    (strOr (strTrim (stripTrailingNumber name)) (strTrim name))

/-- Collection name of an NFT record: derived from the metadata name when
one is present, else the NFT placeholder. -/
def collectionNameOf (md : Option NFTMetadata) : String :=
  if truthyOpt (md.map (fun m => m.name)) then deriveCollectionName (mdName md) else "NFT"

/-- Truthiness of the token symbol of a transfer. -/
def tokenSymTruthy (t : TransferRec) : Bool :=
  truthyOpt t.tokenSymbol

/-- Append a value to the group of key `k`, preserving insertion order
(JavaScript building a `Map` of arrays). -/
def addToGroup {α : Type} (m : List (String × List α)) (k : String) (v : α) : List (String × List α) :=
  match m with
  | [] => [(k, [v])]
  | (k', vs) :: t => if k' == k then (k', vs ++ [v]) :: t else (k', vs) :: addToGroup t k v

/-- First group with a strictly larger count than every earlier one
(the source's max-scan with a strict comparison, skipping empty groups). -/
def maxByCount {α : Type} (l : List (String × List α)) : Option (String × List α) :=
  l.foldl (fun acc e =>
    match acc with
    | none => if 0 < e.2.length then some e else none
    | some m => if m.2.length < e.2.length then some e else some m) none

/-- Stable insertion of a group into a count-descending list (elements
with equal counts keep their relative order). -/
def insertDescByCount {α : Type} (x : String × List α) : List (String × List α) → List (String × List α)
  | [] => [x]
  | h :: t => if h.2.length < x.2.length then x :: h :: t else h :: insertDescByCount x t

/-- Stable sort by descending count, the effect of the source's
`sort((a, b) => b[1].length - a[1].length)`. -/
def sortDescByCount {α : Type} (l : List (String × List α)) : List (String × List α) :=
  l.foldl (fun acc x => insertDescByCount x acc) []

/-- The source and destination labels of a transfer line: resolved from
the raw change record when it can be found, else the formatted owner
strings carried on the record. -/
def transferLabels (d : SummaryInput) (t : TransferRec) : String × String :=
  match d.rawObjectChanges.find? (fun c => c.objectId == t.objectId && c.kind == ChangeKind.transferred) with
  | some rc => (getUserLabel d.addressToUser (getFullAddress rc.sender),
                getUserLabel d.addressToUser (getFullAddress rc.recipient))
  | none => (t.fromStr, t.toStr)

/-!
Bullet summary (`generateSummary`).
-/

/-- One transfer bullet: amount-formatted for fungible transfers with a
truthy symbol/amount/decimals triple, type-named otherwise. -/
def transferBullet (d : SummaryInput) (t : TransferRec) : String :=
  let labels := transferLabels d t
  match t.tokenSymbol, t.amount, t.tokenDecimals with
  | some sym, some a, some dec =>
    if sym = "" || dec = 0 then
      mark labels.1 ++ " transferred " ++ extractTypeName t.objectType ++ " to " ++ mark labels.2
    else
      mark labels.1 ++ " transferred " ++ jsToFixed (jsDivPow10 a dec) (if dec = 6 then 2 else 4)
        ++ " " ++ sym ++ " to " ++ mark labels.2
  | _, _, _ =>
    mark labels.1 ++ " transferred " ++ extractTypeName t.objectType ++ " to " ++ mark labels.2

/-- One significant balance-change bullet; tiny native-token amounts are
suppressed as gas noise. -/
def balanceBullet (d : SummaryInput) (bc : BalanceChangeRec) : Option String :=
  let ti := getTokenInfoFromType (effCoinType bc)
  let amount := jsDivPow10 bc.amount ti.decimals
  if ti.symbol = "SUI" && jsLt (jsAbs amount) ⟨1, 100⟩ then none
  else
    let action := if jsPos amount then "received" else "sent"
    let absAmount := jsToFixed (jsAbs amount) (if ti.decimals = 6 then 2 else 4)
    let addr := strOrDefault (addrOwnerOf bc.owner) "Unknown"
    some (mark (getUserLabel d.addressToUser addr) ++ " " ++ action ++ " " ++ absAmount ++ " " ++ ti.symbol)

/-- The terse bullet summary, together with the inverted label-to-address
map handed to presentation. -/
def generateSummary (d : SummaryInput) : List String × List (String × String) :=
  let userAddressMap := d.addressToUser.foldl (fun m e => assocSet m e.2 e.1) []
  let senderLabel := getUserLabel d.addressToUser d.sender
  let s1 := [mark senderLabel ++ " initiated the transaction"]
  let s2 :=
    if d.packageCalls.isEmpty then []
    else ["Called functions: " ++ strJoin ", " (d.packageCalls.map (fun c => c.displayName))]
  let nftsCreated := d.objectsCreated.filter (fun o => o.isNFT)
  let s3 :=
    if nftsCreated.isEmpty then []
    else [mark (toString nftsCreated.length ++ " NFT" ++ plural nftsCreated.length) ++ " created"]
  let plainCreated := d.objectsCreated.filter (fun o => !o.isNFT)
  let s4 :=
    if plainCreated.isEmpty then []
    else [mark (toString plainCreated.length ++ " object" ++ plural plainCreated.length) ++ " created"]
  let s5 :=
    if d.objectsTransferred.isEmpty then []
    else
      let nftTransfers := d.objectsTransferred.filter (fun t => t.isNFT)
      let otherTransfers := d.objectsTransferred.filter (fun t => !t.isNFT)
      let nftLines := (nftTransfers.take 3).map (fun t =>
        let labels := transferLabels d t
        mark labels.2 ++ " received " ++ nftNameStr t.nftMetadata ++ " from " ++ mark labels.1)
      let overflow :=
        if 3 < nftTransfers.length then
          ["  ... and " ++ toString (nftTransfers.length - 3) ++ " more NFT transfers"]
        else []
      nftLines ++ overflow ++ (otherTransfers.take 3).map (transferBullet d)
  let s6 :=
    if d.objectsMutated.isEmpty then []
    else [mark (toString d.objectsMutated.length ++ " object" ++ plural d.objectsMutated.length) ++ " modified"]
  let s7 :=
    if d.objectsDeleted.isEmpty then []
    else [toString d.objectsDeleted.length ++ " object" ++ plural d.objectsDeleted.length ++ " deleted"]
  let s8 := (d.balanceChanges.take 5).filterMap (balanceBullet d)
  (s1 ++ s2 ++ s3 ++ s4 ++ s5 ++ s6 ++ s7 ++ s8, userAddressMap)

/-!
Step-by-step breakdown (`generateAIBreakdown`).
-/

/-- Append a transfer to a from/to-labelled group keyed by the label pair. -/
def addToGroup3 (m : List (String × (String × String × List TransferRec)))
    (k : String) (fl tl : String) (t : TransferRec) :
    List (String × (String × String × List TransferRec)) :=
  match m with
  | [] => [(k, (fl, tl, [t]))]
  | (k', v) :: rest =>
    if k' == k then (k', (v.1, v.2.1, v.2.2 ++ [t])) :: rest
    else (k', v) :: addToGroup3 rest k fl tl t

/-- The detailed step list: filtered contract calls, mints grouped by
collection, NFT transfers grouped by label pair (self-transfers back to
the sender skipped), and a count line for bulk non-NFT creations. -/
def generateAIBreakdown (d : SummaryInput) : List String :=
  let senderLabel := getUserLabel d.addressToUser d.sender
  let b1 :=
    let importantCalls := d.packageCalls.filter (fun c =>
      !(strContains c.fn "transfer" || strContains c.fn "split_coin" || strContains c.fn "pay"))
    (importantCalls.take 3).map (fun c =>
      mark senderLabel ++ " called " ++ mark (c.moduleName ++ "::" ++ c.fn))
  let nftsCreated := d.objectsCreated.filter (fun o =>
    o.isNFT && isRelevantNFT (mdName o.nftMetadata) o.objectType)
  let nftTransfers := d.objectsTransferred.filter (fun t =>
    t.isNFT && isRelevantNFT (mdName t.nftMetadata) t.objectType)
  let b2 :=
    if nftsCreated.isEmpty then []
    else
      let collectionMap := nftsCreated.foldl (fun m nft => addToGroup m (collectionNameOf nft.nftMetadata) nft) []
      collectionMap.filterMap (fun e =>
        if strStartsWith e.1 "0x" && 50 < e.1.length then none
        else
          match e.2 with
          | [n] =>
            let nftName := nftNameStr n.nftMetadata
            if strStartsWith nftName "0x" && 50 < nftName.length then none
            else some (mark nftName ++ " was minted")
          | ns => some (mark (toString ns.length ++ " " ++ e.1 ++ plural ns.length) ++ " were minted"))
  let b3 :=
    if nftTransfers.isEmpty then []
    else
      let transferMap := nftTransfers.foldl (fun m t =>
        let rawChange := d.rawObjectChanges.find? (fun c =>
          c.objectId == t.objectId && c.kind == ChangeKind.transferred)
        let fromAddr := match rawChange with
          | some rc => getFullAddress rc.sender
          | none => t.fromStr
        let toAddr := match rawChange with
          | some rc => getFullAddress rc.recipient
          | none => t.toStr
        if toAddr = d.sender then m
        else
          let fromLabel := getUserLabel d.addressToUser fromAddr
          let toLabel := getUserLabel d.addressToUser toAddr
          addToGroup3 m (fromLabel ++ "->" ++ toLabel) fromLabel toLabel t) []
      transferMap.map (fun e =>
        match e.2.2.2 with
        | [n] =>
          mark (nftNameStr n.nftMetadata) ++ " transferred from " ++ mark e.2.1 ++ " to " ++ mark e.2.2.1
        | ns =>
          let collectionName := match ns with
            | n0 :: _ => collectionNameOf n0.nftMetadata
            | [] => "NFT"
          mark (toString ns.length ++ " " ++ collectionName ++ plural ns.length)
            ++ " transferred from " ++ mark e.2.1 ++ " to " ++ mark e.2.2.1)
  let b4 :=
    let others := d.objectsCreated.filter (fun o => !o.isNFT)
    if 3 < others.length then
      [mark (toString others.length ++ " object" ++ plural others.length) ++ " created"]
    else []
  b1 ++ b2 ++ b3 ++ b4

/-!
Headline summary (`generateAISummary`): a strict priority ladder.
-/

/-- Recipient address of a transfer for grouping purposes: the raw
change's recipient when the record can be found, else the formatted
destination carried on the transfer. -/
def transferToAddr (d : SummaryInput) (t : TransferRec) : String :=
  match d.rawObjectChanges.find? (fun c => c.objectId == t.objectId && c.kind == ChangeKind.transferred) with
  | some rc => getFullAddress rc.recipient
  | none => t.toStr

/-- Headline tiers 1 and 2: NFT transfers (mint-and-send first, then
plain transfers grouped by recipient), then non-native coin transfers.
The whole block only runs when the transaction transferred objects. -/
def tierNftOrCoin (d : SummaryInput) : Option String :=
  if d.objectsTransferred.isEmpty then none
  else
    let nftTransfers := d.objectsTransferred.filter (fun t =>
      t.isNFT && isRelevantNFT (mdName t.nftMetadata) t.objectType)
    let nftsCreated := d.objectsCreated.filter (fun o =>
      o.isNFT && isRelevantNFT (mdName o.nftMetadata) o.objectType)
    let fromNft :=
      if nftTransfers.isEmpty then none
      else
        let createdNFTIds := nftsCreated.map (fun o => o.objectId)
        let mintedAndTransferred := nftTransfers.filter (fun t =>
          createdNFTIds.any (fun i => i == t.objectId))
        let fromMint :=
          if mintedAndTransferred.isEmpty then none
          else
            let recipientMap := mintedAndTransferred.foldl (fun m t =>
              addToGroup m (transferToAddr d t) t) []
            let mapAfter := recipientMap.filter (fun e => !(e.1 == d.sender))
            let recipients := mapAfter.filter (fun e => !(e.1 == d.sender))
            if !recipients.isEmpty then
              match sortDescByCount recipients with
              | (addr0, t0 :: ts0) :: _ =>
                let recipientLabel := getUserLabel d.addressToUser addr0
                let senderLabel := getUserLabel d.addressToUser d.sender
                if ts0.isEmpty then
                  some (mark recipientLabel ++ " received " ++ nftNameStr t0.nftMetadata
                    ++ " from " ++ mark senderLabel)
                else
                  some (mark recipientLabel ++ " received " ++ toString (t0 :: ts0).length ++ " "
                    ++ collectionNameOf t0.nftMetadata ++ plural (t0 :: ts0).length
                    ++ " from " ++ mark senderLabel)
              | _ => none
            else if mapAfter.any (fun e => e.1 == d.sender) && mapAfter.length == 1 then
              match assocGet mapAfter d.sender with
              | some (t0 :: ts0) =>
                let senderLabel := getUserLabel d.addressToUser d.sender
                if ts0.isEmpty then
                  some (mark senderLabel ++ " mints " ++ nftNameStr t0.nftMetadata)
                else
                  some (mark senderLabel ++ " mints " ++ toString (t0 :: ts0).length ++ " "
                    ++ collectionNameOf t0.nftMetadata ++ plural (t0 :: ts0).length)
              | _ => none
            else none
        match fromMint with
        | some s => some s
        | none =>
          let recipientMap := nftTransfers.foldl (fun m t =>
            addToGroup m (transferToAddr d t) t) []
          match maxByCount recipientMap with
          | some (addr, t0 :: ts0) =>
            let recipientLabel := getUserLabel d.addressToUser addr
            if ts0.isEmpty then
              let fromLabel :=
                match d.rawObjectChanges.find? (fun c =>
                  c.objectId == t0.objectId && c.kind == ChangeKind.transferred) with
                | some rc =>
                  if ownerTruthy rc.sender then getUserLabel d.addressToUser (getFullAddress rc.sender)
                  else "Unknown"
                | none => "Unknown"
              some (mark recipientLabel ++ " receives " ++ nftNameStr t0.nftMetadata
                ++ " from " ++ mark fromLabel)
            else
              let collectionName := match t0.nftMetadata with
                | some m => strOr (strTrim ((strSplitOn m.name "#").headD "")) "NFT"
                | none => "NFT"
              some (mark recipientLabel ++ " receives " ++ toString (t0 :: ts0).length ++ " "
                ++ collectionName ++ plural (t0 :: ts0).length)
          | _ => none
    match fromNft with
    | some s => some s
    | none =>
      let coinTransfers := d.objectsTransferred.filter (fun t =>
        tokenSymTruthy t && t.amount.isSome && !(t.tokenSymbol.getD "" == "SUI"))
      match coinTransfers with
      | [] => none
      | t :: _ =>
        let amount := match t.amount, t.tokenDecimals with
          | some a, some dec =>
            if dec = 0 then "?" else jsToFixed (jsDivPow10 a dec) (if dec = 6 then 2 else 4)
          | _, _ => "?"
        some (mark t.fromStr ++ " sends " ++ amount ++ " " ++ t.tokenSymbol.getD ""
          ++ " to " ++ mark t.toStr)

/-- Per-coin-type accumulator of tier 3: the largest-magnitude negative
and positive balance changes seen so far. -/
structure TokenPairAcc where
  sendBC : Option BalanceChangeRec := none
  recvBC : Option BalanceChangeRec := none
deriving DecidableEq, Repr

/-- Fold one balance change into the accumulator of its coin type. -/
def btUpdate (p : TokenPairAcc) (bc : BalanceChangeRec) : TokenPairAcc :=
  let sendBetter := match p.sendBC with
    | none => true
    | some s => s.amount.natAbs < bc.amount.natAbs
  let p := if bc.amount < 0 && sendBetter then { p with sendBC := some bc } else p
  let recvBetter := match p.recvBC with
    | none => true
    | some r => r.amount < bc.amount
  if 0 < bc.amount && recvBetter then { p with recvBC := some bc } else p

/-- Apply one balance change at its coin-type key, preserving insertion
order of the keys. -/
def btApply : List (String × TokenPairAcc) → String → BalanceChangeRec → List (String × TokenPairAcc)
  | [], ct, bc => [(ct, btUpdate {} bc)]
  | (k, p) :: t, ct, bc =>
    if k == ct then (k, btUpdate p bc) :: t else (k, p) :: btApply t ct bc

/-- Group the balance changes by coin type, tracking the extreme send and
receive entry for each. -/
def buildTokenTransfers (l : List BalanceChangeRec) : List (String × TokenPairAcc) :=
  l.foldl (fun m bc => btApply m (effCoinType bc) bc) []

/-- The peer-to-peer-send sentence attempt for one coin type: requires
both a send and a receive entry, a non-noise native amount, magnitudes
within one percent of the send side, and two distinct address owners.
The formatted amount is the send-side magnitude. -/
def balancePairSentence (d : SummaryInput) (e : String × TokenPairAcc) : Option String :=
  match e.2.sendBC, e.2.recvBC with
  | some send, some receive =>
    let ti := getTokenInfoFromType e.1
    let sendAmount := jsAbs (jsDivPow10 send.amount ti.decimals)
    let receiveAmount := jsDivPow10 receive.amount ti.decimals
    if ti.symbol = "SUI" && jsLt sendAmount ⟨1, 10⟩ then none
    else if jsLt (jsAbs (jsSub sendAmount receiveAmount)) (jsMul ⟨1, 100⟩ sendAmount) then
      match addrOwnerOf send.owner, addrOwnerOf receive.owner with
      | some sa, some ra =>
        if sa = ra then none
        else some (mark (getUserLabel d.addressToUser sa) ++ " sends "
          ++ jsToFixed sendAmount (if ti.decimals = 6 then 2 else 4) ++ " " ++ ti.symbol
          ++ " to " ++ mark (getUserLabel d.addressToUser ra))
      | _, _ => none
    else none
  | _, _ => none

/-- Headline tier 3: paired balance changes read as a peer-to-peer send. -/
def tierBalance (d : SummaryInput) : Option String :=
  if d.balanceChanges.isEmpty then none
  else (buildTokenTransfers d.balanceChanges).findSome? (balancePairSentence d)

/-- Headline tier 4: any remaining object transfer. -/
def tierOtherTransfer (d : SummaryInput) : Option String :=
  match d.objectsTransferred with
  | [] => none
  | t :: rest =>
    let typeName := extractTypeName t.objectType
    if typeName = "NFT" || strContains (strToLower typeName) "nft" then
      some (mark t.fromStr ++ " transfers an NFT to " ++ mark t.toStr)
    else if rest.isEmpty && !strContains typeName "Coin" then
      some (mark t.fromStr ++ " transfers a " ++ typeName ++ " to " ++ mark t.toStr)
    else
      let nonCoin := (t :: rest).filter (fun x => !tokenSymTruthy x)
      if nonCoin.isEmpty then none
      else some (mark t.fromStr ++ " transfers " ++ toString nonCoin.length ++ " object"
        ++ plural nonCoin.length ++ " to " ++ mark t.toStr)

/-- Headline tier 5: created objects, preferring relevant NFTs, phrased
as received-from-sender when the created NFTs are owned by someone else. -/
def tierCreated (d : SummaryInput) : Option String :=
  match d.objectsCreated with
  | [] => none
  | c0 :: restC =>
    let senderLabel := getUserLabel d.addressToUser d.sender
    let nfts := (c0 :: restC).filter (fun o =>
      o.isNFT && isRelevantNFT (mdName o.nftMetadata) o.objectType)
    match nfts with
    | [] =>
      let typeName := extractTypeName c0.objectType
      if restC.isEmpty then some (mark senderLabel ++ " creates a " ++ typeName)
      else some (mark senderLabel ++ " creates " ++ toString (c0 :: restC).length ++ " new objects")
    | n0 :: restN =>
      let recipientMap := (n0 :: restN).foldl (fun m nft =>
        match d.rawObjectChanges.find? (fun c =>
          c.objectId == nft.objectId && c.kind == ChangeKind.created) with
        | some rc =>
          if ownerTruthy rc.owner then
            let ownerAddr := getFullAddress rc.owner
            if !(ownerAddr = "") && !(ownerAddr = "Unknown") && !(ownerAddr = d.sender) then
              addToGroup m ownerAddr nft
            else m
          else m
        | none => m) []
      let fromRecipients :=
        if recipientMap.isEmpty then none
        else
          match maxByCount recipientMap with
          | some (addr, x :: xs) =>
            let recipientLabel := getUserLabel d.addressToUser addr
            if xs.isEmpty then
              some (mark recipientLabel ++ " received " ++ nftNameStr x.nftMetadata
                ++ " from " ++ mark senderLabel)
            else
              some (mark recipientLabel ++ " received " ++ toString (x :: xs).length ++ " "
                ++ collectionNameOf x.nftMetadata ++ plural (x :: xs).length
                ++ " from " ++ mark senderLabel)
          | _ => none
      match fromRecipients with
      | some s => some s
      | none =>
        if restN.isEmpty then some (mark senderLabel ++ " minted " ++ nftNameStr n0.nftMetadata)
        else some (mark senderLabel ++ " minted " ++ toString (n0 :: restN).length ++ " "
          ++ collectionNameOf n0.nftMetadata ++ plural (n0 :: restN).length)

/-- Headline tier 7: contract calls matched against a small verb
vocabulary. -/
def tierCalls (d : SummaryInput) : Option String :=
  match d.packageCalls with
  | [] => none
  | call :: _ =>
    let senderLabel := getUserLabel d.addressToUser d.sender
    if strContains call.fn "mint" then some (mark senderLabel ++ " mints a new token or NFT")
    else if strContains call.fn "swap" then some (mark senderLabel ++ " performs a token swap")
    else if strContains call.fn "stake" then some (mark senderLabel ++ " stakes tokens")
    else if strContains call.fn "claim" then some (mark senderLabel ++ " claims rewards or tokens")
    else if strContains call.fn "deposit" then some (mark senderLabel ++ " deposits into a protocol")
    else if strContains call.fn "withdraw" then some (mark senderLabel ++ " withdraws from a protocol")
    else some (mark senderLabel ++ " calls " ++ call.moduleName ++ "::" ++ call.fn)

/-- The headline summary: the first tier that produces a sentence wins,
with a generic fallback naming only the sender. -/
def generateAISummary (d : SummaryInput) : String :=
  match tierNftOrCoin d with
  | some s => s
  | none =>
    match tierBalance d with
    | some s => s
    | none =>
      match tierOtherTransfer d with
      | some s => s
      | none =>
        match tierCreated d with
        | some s => s
        | none =>
          match tierCalls d with
          | some s => s
          | none => mark (getUserLabel d.addressToUser d.sender) ++ " executes a transaction on Sui"

/-!
The normalizer (`parseTransaction`), enrichment orchestrator
(`enrichWithObjectData`) and the success path of the fetch orchestrator.
-/

/-- Does the optional type identifier contain the given pattern
(`change.objectType?.includes(pat)` with undefined falsy)? -/
def optTypeContains (o : Option String) (pat : String) : Bool :=
  match o with
  | some t => strContains t pat
  | none => false

/-- Build the canonical record of a created object. -/
def mkCreatedRec (enr : List (String × EnrichedObject)) (c : RawObjectChange) : ObjectChangeRec :=
  let enrichedData := assocGet enr c.objectId
  let isNFT := isNFTObject c.objectType enrichedData
  { objectId := c.objectId
    objectType := strOrDefault c.objectType "Unknown"
    version := c.version
    digest := c.digest
    owner := some (formatOwner c.owner)
    fullOwnerAddress := some (getFullAddress c.owner)
    isNFT := isNFT
    nftMetadata := if isNFT then extractNFTMetadata enrichedData else none }

/-- Build the canonical record of a deleted object (no owner, no
classification). -/
def mkDeletedRec (c : RawObjectChange) : ObjectChangeRec :=
  { objectId := c.objectId
    objectType := strOrDefault c.objectType "Unknown"
    version := c.version
    digest := c.digest }

/-- Build the canonical record of a mutated object (owner formatted, no
classification). -/
def mkMutatedRec (c : RawObjectChange) : ObjectChangeRec :=
  { objectId := c.objectId
    objectType := strOrDefault c.objectType "Unknown"
    version := c.version
    digest := c.digest
    owner := some (formatOwner c.owner) }

/-- Build the canonical record of a transferred object: coin fields are
resolved when the type matches the coin pattern, and the NFT flag is
computed by the classifier in any case. -/
def mkTransferRec (enr : List (String × EnrichedObject)) (c : RawObjectChange) : TransferRec :=
  let enrichedData := assocGet enr c.objectId
  let coin :=
    if optTypeContains c.objectType "coin::Coin" then
      some (extractCoinInfo (c.objectType.getD "") enrichedData)
    else none
  let isNFT := isNFTObject c.objectType enrichedData
  { objectId := c.objectId
    objectType := strOrDefault c.objectType "Unknown"
    fromStr := formatOwner c.sender
    toStr := formatOwner c.recipient
    version := c.version
    amount := coin.bind (fun ci => ci.amount)
    tokenSymbol := coin.map (fun ci => ci.symbol)
    tokenDecimals := coin.map (fun ci => ci.decimals)
    isNFT := isNFT
    nftMetadata := if isNFT then extractNFTMetadata enrichedData else none }

/-- Total gas in native units: computation + storage − rebate, exact
integer arithmetic (zero when the gas record is absent). -/
def gasTotalOf (tb : TxBlock) : Int :=
  match tb.effects.bind (fun e => e.gasUsed) with
  | some g => g.computationCost + g.storageCost - g.storageRebate
  | none => 0

/-- The address-labeler visitation of one interpretation run: sender
first, then owners of created NFTs (concrete addresses only), then both
ends of every transfer, then balance-change owners. -/
def visitAddresses (tb : TxBlock) (sender : String)
    (objectsCreated : List ObjectChangeRec) (objectsTransferred : List TransferRec) : LabelState :=
  let st := (getOrCreateUserLabel ⟨[], 0⟩ sender).1
  let st := objectsCreated.foldl (fun st c =>
    match c.fullOwnerAddress with
    | some fa =>
      if c.isNFT && !(fa = "") && !(fa = "Unknown") && !(fa = "Shared") && !(fa = "Immutable")
          && !(strStartsWith fa "Object(") then
        (getOrCreateUserLabel st fa).1
      else st
    | none => st) st
  let st := objectsTransferred.foldl (fun st t =>
    match tb.objectChanges.find? (fun c => c.objectId == t.objectId && c.kind == ChangeKind.transferred) with
    | none => st
    | some rc =>
      let st := if ownerTruthy rc.sender then (getOrCreateUserLabel st (getFullAddress rc.sender)).1 else st
      if ownerTruthy rc.recipient then (getOrCreateUserLabel st (getFullAddress rc.recipient)).1 else st) st
  tb.balanceChanges.foldl (fun st bc =>
    match addrOwnerOf bc.owner with
    | some a => (getOrCreateUserLabel st a).1
    | none => st) st

/-- The engine's output model. -/
structure ParsedTransaction where
  digest : String
  timestamp : Option Int
  sender : String
  success : Bool
  gasUsed : String
  gasCostSui : String
  objectsCreated : List ObjectChangeRec
  objectsDeleted : List ObjectChangeRec
  objectsMutated : List ObjectChangeRec
  objectsTransferred : List TransferRec
  packageCalls : List PackageCall
  summary : List String
  userAddressMap : List (String × String)
  aiSummary : String
  aiBreakdown : List String
deriving DecidableEq, Repr

/-- The normalizer plus synthesis: classify every raw change, extract the
contract calls, populate the address labeler in the fixed visitation
order, and run the three renderers. -/
def parseTransaction (tb : TxBlock) : ParsedTransaction :=
  let sender := strOrDefault tb.sender "Unknown"
  let totalGas := gasTotalOf tb
  let objectsCreated := tb.objectChanges.filterMap (fun c =>
    if c.kind == ChangeKind.created then some (mkCreatedRec tb.enrichedObjects c) else none)
  let objectsDeleted := tb.objectChanges.filterMap (fun c =>
    if c.kind == ChangeKind.deleted then some (mkDeletedRec c) else none)
  let objectsMutated := tb.objectChanges.filterMap (fun c =>
    if c.kind == ChangeKind.mutated then some (mkMutatedRec c) else none)
  let objectsTransferred := tb.objectChanges.filterMap (fun c =>
    if c.kind == ChangeKind.transferred then some (mkTransferRec tb.enrichedObjects c) else none)
  let packageCalls := tb.commands.filterMap (fun cmd =>
    match cmd with
    | TxCommand.moveCall p m f => some ⟨p, m, f, m ++ "::" ++ f⟩
    | TxCommand.other => none)
  let labels := visitAddresses tb sender objectsCreated objectsTransferred
  let d : SummaryInput :=
    { sender := sender
      objectsCreated := objectsCreated
      objectsDeleted := objectsDeleted
      objectsMutated := objectsMutated
      objectsTransferred := objectsTransferred
      packageCalls := packageCalls
      balanceChanges := tb.balanceChanges
      addressToUser := labels.assoc
      rawObjectChanges := tb.objectChanges }
  let summaryData := generateSummary d
  { digest := tb.digest
    timestamp := tb.timestampMs
    sender := sender
    success := (tb.effects.bind (fun e => e.status)) == some "success"
    gasUsed := toString totalGas
    gasCostSui := jsToFixed (jsDivPow10 totalGas 9) 6
    objectsCreated := objectsCreated
    objectsDeleted := objectsDeleted
    objectsMutated := objectsMutated
    objectsTransferred := objectsTransferred
    packageCalls := packageCalls
    summary := summaryData.1
    userAddressMap := summaryData.2
    aiSummary := generateAISummary d
    aiBreakdown := generateAIBreakdown d }

/-- The enrichment orchestrator: select at most 3 coin transfer targets,
5 created objects and 5 non-coin transfer targets, then fetch each
independently; a failed fetch (modelled as `none`, covering a thrown
error or a timeout) contributes no entry.  An empty selection returns the
empty mapping without contacting the collaborator. -/
def enrichWithObjectData (tb : TxBlock) (fetchObject : String → Option EnrichedObject) :
    List (String × EnrichedObject) :=
  let coinObjects := (tb.objectChanges.filter (fun c =>
    c.kind == ChangeKind.transferred && optTypeContains c.objectType "coin::Coin")).take 3
  let createdObjects := (tb.objectChanges.filter (fun c => c.kind == ChangeKind.created)).take 5
  let transferredNonCoin := (tb.objectChanges.filter (fun c =>
    c.kind == ChangeKind.transferred && !optTypeContains c.objectType "coin::Coin")).take 5
  let allObjectsToFetch := coinObjects ++ createdObjects ++ transferredNonCoin
  if allObjectsToFetch.isEmpty then []
  else allObjectsToFetch.filterMap (fun o =>
    (fetchObject o.objectId).map (fun objectData => (o.objectId, objectData)))

/-- Attach an enrichment mapping to a transaction block. -/
def withEnriched (tb : TxBlock) (m : List (String × EnrichedObject)) : TxBlock :=
  { tb with enrichedObjects := m }

/-- The success path of `fetchTransactionDetails`: enrich (with whatever
the collaborator yields) and parse. -/
def fetchPipeline (tb : TxBlock) (fetchObject : String → Option EnrichedObject) : ParsedTransaction :=
  parseTransaction (withEnriched tb (enrichWithObjectData tb fetchObject))

/-!
Failure path of the fetch orchestrator (`fetchTransactionDetails` and
`tryAlternativeEndpoint`): a step model over an environment oracle.
`fetchAttempt depth i` tells whether the `i`-th attempt of the bounded
retry loop succeeds after `depth` endpoint switches, and `probe depth`
tells whether the health probe of `tryAlternativeEndpoint` finds a
responsive alternate endpoint at that point.  The source guards the
switch with a local `attemptedFallback` flag, but the flag is a fresh
local of every invocation and the recursive call starts a fresh
invocation, so it never blocks a switch; the model reflects that. -/
structure FetchEnv where
  fetchAttempt : Nat → Nat → Bool
  probe : Nat → Bool

/-- The bounded retry loop (`retryWithBackoff` with 3 attempts): does any
attempt succeed? -/
def retrySucceeds (env : FetchEnv) (depth : Nat) : Bool :=
  (List.range 3).any (env.fetchAttempt depth)

/-- Outcome of the fetch orchestrator within a given amount of fuel. -/
inductive FetchOutcome where
  | success
  | failure
  | outOfFuel
deriving DecidableEq, Repr

/-- Fuel-indexed model of `fetchTransactionDetails`: run the retry loop;
on failure, probe for an alternate endpoint and, if one responds, switch
and restart the whole pipeline (the source's recursive call); otherwise
surface a classified error.  `outOfFuel` marks a run still going after
`fuel` nested restarts. -/
def fetchTransactionDetailsModel (env : FetchEnv) : Nat → Nat → FetchOutcome
  | _, 0 => FetchOutcome.outOfFuel
  | depth, fuel + 1 =>
    if retrySucceeds env depth then FetchOutcome.success
    else if env.probe depth then fetchTransactionDetailsModel env (depth + 1) fuel
    else FetchOutcome.failure

/-- Number of endpoint switches the model performs within the fuel. -/
def fetchSwitchCount (env : FetchEnv) : Nat → Nat → Nat
  | _, 0 => 0
  | depth, fuel + 1 =>
    if retrySucceeds env depth then 0
    else if env.probe depth then 1 + fetchSwitchCount env (depth + 1) fuel
    else 0

/-!
Support definitions for the verification below.
-/

/-- The adversarial environment: every alternate endpoint answers the
health probe, yet every transaction fetch fails. -/
def alwaysFailingFetchEnv : FetchEnv :=
  ⟨fun _ _ => false, fun _ => true⟩

/-- The ten pseudonym strings the labeler can assign. -/
def pseudonymLiterals : List String :=
  ["User A", "User B", "User C", "User D", "User E",
   "User F", "User G", "User H", "User I", "User J"]

/-- Invariant of the labeler state maintained along any visitation whose
addresses are not themselves literal pseudonym strings. -/
structure LabelInv (st : LabelState) : Prop where
  idx_le : st.userIndex ≤ 10
  keys_nodup : (st.assoc.map Prod.fst).Nodup
  keys_not_pseudo : ∀ e ∈ st.assoc, e.1 ∉ pseudonymLiterals
  pseudo_labels : (st.assoc.filter (fun e => decide (e.2 ∈ pseudonymLiterals))).map Prod.snd
      = (List.range st.userIndex).map userLabelString
  fallback_spec : ∀ e ∈ st.assoc, e.2 ∉ pseudonymLiterals → e.2 = truncateAddress e.1

/-- A well-known USDC coin type (a static-table entry with 6 decimals). -/
def usdcType : String :=
  "0xdba34672e30cb065b1f93e3ab55318768fd6fef66c15942c9f7cb846e2f900e7::usdc::USDC"

/-- A transaction block whose balance changes are a −1000000 / +992000
pair of the same coin type with different address owners (magnitudes
within 1 percent of each other) and nothing else. -/
def pairBlock : TxBlock :=
  { sender := some "0xaaaaaaaaaaaaaaaaaaaaaaaaaaaaaaaaaa01"
    balanceChanges :=
      [ { coinType := some usdcType, amount := -1000000,
          owner := RawOwner.addressOwner "0xaaaaaaaaaaaaaaaaaaaaaaaaaaaaaaaaaa01" },
        { coinType := some usdcType, amount := 992000,
          owner := RawOwner.addressOwner "0xbbbbbbbbbbbbbbbbbbbbbbbbbbbbbbbbbb02" } ] }

/-- A transaction block with exactly one created object of an NFT-pattern
type owned by a non-sender address, no transfers, no enrichment (so the
NFT has no resolved display name). -/
def namelessNftBlock : TxBlock :=
  { sender := some "0xcccccccccccccccccccccccccccccccccc01"
    objectChanges :=
      [ { kind := ChangeKind.created, objectId := "0xobj1",
          objectType := some "0xabc::nft::Cool", version := "1", digest := "d",
          owner := RawOwner.addressOwner "0xdddddddddddddddddddddddddddddddddd02" } ] }

/-- Ten distinct long addresses followed by the literal string User A. -/
def overflowAddrs : List String :=
  ["0x00000000000001", "0x00000000000002", "0x00000000000003", "0x00000000000004",
   "0x00000000000005", "0x00000000000006", "0x00000000000007", "0x00000000000008",
   "0x00000000000009", "0x00000000000010", "User A"]

/-- A gas-bearing transaction block with computation 100, storage 50,
rebate 30. -/
def gasBlock : TxBlock :=
  { sender := some "0xcccccccccccccccccccccccccccccccccc01"
    effects := some { gasUsed := some ⟨100, 50, 30⟩, status := some "success" } }

/-- A one-created-object block used to exercise the enrichment failure
path. -/
def enrichFailBlock : TxBlock :=
  { sender := some "0xcccccccccccccccccccccccccccccccccc01"
    objectChanges :=
      [ { kind := ChangeKind.created, objectId := "0xobj1",
          objectType := some "0xabc::thing::Widget", version := "1", digest := "d",
          owner := RawOwner.addressOwner "0xcccccccccccccccccccccccccccccccccc01" } ] }

/-- The canonical record of the relevant created NFT used as witness
data. -/
def receivedNftRec : ObjectChangeRec :=
  { objectId := "0xobj1", objectType := "0xabc::nft::Cool", isNFT := true,
    owner := some "0xdddd...dd02",
    fullOwnerAddress := some "0xdddddddddddddddddddddddddddddddddd02",
    nftMetadata := some { name := "Cool Cat #7" } }

/-- The raw change record behind it. -/
def receivedNftRaw : RawObjectChange :=
  { kind := ChangeKind.created, objectId := "0xobj1",
    objectType := some "0xabc::nft::Cool", version := "1", digest := "d",
    owner := RawOwner.addressOwner "0xdddddddddddddddddddddddddddddddddd02" }

/-- A renderer input with one relevant created NFT owned by a non-sender
address, used as witness data. -/
def receivedNftInput : SummaryInput :=
  { sender := "0xcccccccccccccccccccccccccccccccccc01"
    objectsCreated := [receivedNftRec]
    addressToUser :=
      [("0xcccccccccccccccccccccccccccccccccc01", "User A"),
       ("0xdddddddddddddddddddddddddddddddddd02", "User B")]
    rawObjectChanges := [receivedNftRaw] }

/-- A renderer input carrying only the −1000000 / +992000 balance pair,
used as witness data. -/
def pairInput : SummaryInput :=
  { sender := "0xaaaaaaaaaaaaaaaaaaaaaaaaaaaaaaaaaa01"
    balanceChanges := pairBlock.balanceChanges
    addressToUser :=
      [("0xaaaaaaaaaaaaaaaaaaaaaaaaaaaaaaaaaa01", "User A"),
       ("0xbbbbbbbbbbbbbbbbbbbbbbbbbbbbbbbbbb02", "User B")] }

/-!
General helper lemmas.
-/

theorem strLength_pos (s : String) (h : ¬ s = "") : 0 < s.length := by
  cases s with
  | mk data =>
    cases data with
    | nil => exact absurd rfl h
    | cons c cs => simp [String.length]

theorem filterMap_none_eq_nil {α β : Type} (l : List α) (f : α → Option β)
    (h : ∀ a ∈ l, f a = none) : l.filterMap f = [] := by
  induction l with
  | nil => rfl
  | cons a t ih =>
    rw [List.filterMap_cons, h a (List.mem_cons_self a t)]
    exact ih (fun x hx => h x (List.mem_cons_of_mem a hx))

theorem assocGet_none_not_mem {α : Type} (m : List (String × α)) (k : String)
    (h : assocGet m k = none) : ∀ e ∈ m, e.1 ≠ k := by
  intro e he
  unfold assocGet at h
  rw [Option.map_eq_none'] at h
  have := List.find?_eq_none.mp h e he
  simpa using this

theorem assocGet_append_of_some {α : Type} (m m' : List (String × α)) (k : String) (v : α)
    (h : assocGet m k = some v) : assocGet (m ++ m') k = some v := by
  unfold assocGet at h ⊢
  rw [Option.map_eq_some'] at h
  obtain ⟨e, he, hv⟩ := h
  rw [List.find?_append, he]
  simp [hv]

/-- C2: the switch-and-retry cycle of the fetch orchestrator is not
capped at one.  In the environment where every health probe succeeds but
every transaction fetch fails, the run is still in flight after any
number of nested restarts, having performed one endpoint switch per
level: the number of switches grows without bound instead of staying at
most one per top-level call (the local attemptedFallback flag is reset by
each recursive invocation and never blocks a switch). -/
theorem fetch_switch_unbounded (depth fuel : Nat) :
    fetchTransactionDetailsModel alwaysFailingFetchEnv depth fuel = FetchOutcome.outOfFuel
    ∧ fetchSwitchCount alwaysFailingFetchEnv depth fuel = fuel := by
  induction fuel generalizing depth with
  | zero => exact ⟨rfl, rfl⟩
  | succ n ih =>
    have hr : retrySucceeds alwaysFailingFetchEnv depth = false := by
      simp [retrySucceeds, alwaysFailingFetchEnv]
    have hp : alwaysFailingFetchEnv.probe depth = true := rfl
    constructor
    · rw [fetchTransactionDetailsModel, hr, hp]
      simpa using (ih (depth + 1)).1
    · rw [fetchSwitchCount, hr, hp]
      simp [(ih (depth + 1)).2, Nat.add_comm]

/-- C4: a type identifier matching the fungible-coin pattern classifies
as not-NFT regardless of the enriched data supplied: the coin check
precedes every non-fungible rule of the classifier. -/
theorem coin_never_nft (t : String) (d : Option EnrichedObject)
    (h : strContains t "coin::Coin" = true) : isNFTObject (some t) d = false := by
  unfold isNFTObject
  by_cases ht : t = ""
  · simp [ht]
  · simp [ht, h]

/-- Witness for C4 at a concrete coin type carrying both display
metadata and NFT-like content fields. -/
theorem coin_never_nft_witness :
    strContains "0x2::coin::Coin<0x2::sui::SUI>" "coin::Coin" = true ∧
    isNFTObject (some "0x2::coin::Coin<0x2::sui::SUI>")
      (some { display := some { name := some "Shiny" },
              contentFields := some { name := some "Shiny", url := some "https://x" } }) = false :=
  ⟨by decide, coin_never_nft _ _ (by decide)⟩

/-- C9: normalization plus synthesis is a pure function of the raw
transaction block and the enrichment mapping; re-running it yields
byte-identical bullet summary, headline and breakdown artifacts. -/
theorem pipeline_deterministic (tb : TxBlock) (m : List (String × EnrichedObject)) :
    (parseTransaction (withEnriched tb m)).summary = (parseTransaction (withEnriched tb m)).summary
    ∧ (parseTransaction (withEnriched tb m)).aiSummary = (parseTransaction (withEnriched tb m)).aiSummary
    ∧ (parseTransaction (withEnriched tb m)).aiBreakdown = (parseTransaction (withEnriched tb m)).aiBreakdown :=
  ⟨rfl, rfl, rfl⟩

theorem step_keys_not_sentinel (st : LabelState) (a : String)
    (h : ∀ e ∈ st.assoc, isSentinel e.1 = false) :
    ∀ e ∈ ((getOrCreateUserLabel st a).1).assoc, isSentinel e.1 = false := by
  intro e he
  unfold getOrCreateUserLabel at he
  by_cases hs : isSentinel a
  · simp [hs] at he
    exact h e he
  · rw [if_neg (by simp [hs])] at he
    cases hfind : assocGet st.assoc a with
    | some l =>
      rw [hfind] at he
      exact h e he
    | none =>
      rw [hfind] at he
      by_cases hidx : st.userIndex < userLabels.length
      · rw [if_pos hidx] at he
        simp only [List.mem_append, List.mem_singleton] at he
        rcases he with he | he
        · exact h e he
        · rw [he]
          simpa using hs
      · rw [if_neg hidx] at he
        simp only [List.mem_append, List.mem_singleton] at he
        rcases he with he | he
        · exact h e he
        · rw [he]
          simpa using hs

theorem fold_keys_not_sentinel (addrs : List String) (st : LabelState)
    (h : ∀ e ∈ st.assoc, isSentinel e.1 = false) :
    ∀ e ∈ (addrs.foldl (fun st a => (getOrCreateUserLabel st a).1) st).assoc,
      isSentinel e.1 = false := by
  induction addrs generalizing st with
  | nil => simpa using h
  | cons a t ih =>
    intro e he
    exact ih ((getOrCreateUserLabel st a).1) (step_keys_not_sentinel st a h) e he

/-- C10: the sentinel owner descriptors (Unknown, Shared, Immutable, and
anything starting with Object-paren) are returned unchanged by the
labeler, leave its state untouched (so they never consume a pseudonym),
and consequently never appear as keys of the label map of any run. -/
theorem sentinels_never_labeled :
    (∀ (st : LabelState) (a : String), isSentinel a = true →
      getOrCreateUserLabel st a = (st, a))
    ∧ (∀ (addrs : List String) (e : String × String),
        e ∈ (processAddresses addrs).assoc → isSentinel e.1 = false) := by
  constructor
  · intro st a h
    unfold getOrCreateUserLabel
    rw [if_pos h]
  · intro addrs e he
    exact fold_keys_not_sentinel addrs ⟨[], 0⟩ (by intro e h; simp at h) e he

/-- Witness for C10: a concrete sentinel passes through with the state
(one assigned pseudonym, index one) unchanged. -/
theorem sentinels_never_labeled_witness :
    isSentinel "Object(0x1234)" = true ∧
    getOrCreateUserLabel ⟨[("0x00000000000001", "User A")], 1⟩ "Object(0x1234)"
      = (⟨[("0x00000000000001", "User A")], 1⟩, "Object(0x1234)") :=
  ⟨by decide, sentinels_never_labeled.1 ⟨[("0x00000000000001", "User A")], 1⟩ "Object(0x1234)" (by decide)⟩

/-- C5: with the gas accounting fields present, the reported total is
exactly computation + storage − rebate in integer arithmetic, the
displayed cost is that total scaled by 10^9 and rendered with six
fractional digits, and in particular 100/50/30 yields total 120. -/
theorem gas_exact_arithmetic (tb : TxBlock) (g : GasUsed) (eff : Effects)
    (h1 : tb.effects = some eff) (h2 : eff.gasUsed = some g) :
    (parseTransaction tb).gasUsed = toString (g.computationCost + g.storageCost - g.storageRebate)
    ∧ (parseTransaction tb).gasCostSui =
        jsToFixed (jsDivPow10 (g.computationCost + g.storageCost - g.storageRebate) 9) 6
    ∧ gasTotalOf gasBlock = 120 := by
  have hg : gasTotalOf tb = g.computationCost + g.storageCost - g.storageRebate := by
    unfold gasTotalOf
    rw [h1]
    simp [h2]
  have hu : (parseTransaction tb).gasUsed = toString (gasTotalOf tb) := rfl
  have hc : (parseTransaction tb).gasCostSui = jsToFixed (jsDivPow10 (gasTotalOf tb) 9) 6 := rfl
  exact ⟨by rw [hu, hg], by rw [hc, hg], by decide⟩

/-- Witness for C5 at the concrete 100/50/30 gas block: reported total
120, displayed cost 0.000000. -/
theorem gas_exact_arithmetic_witness :
    gasBlock.effects = some { gasUsed := some ⟨100, 50, 30⟩, status := some "success" }
    ∧ (parseTransaction gasBlock).gasUsed = "120"
    ∧ (parseTransaction gasBlock).gasCostSui = "0.000000" := by
  refine ⟨rfl, ?_, ?_⟩
  · rw [(gas_exact_arithmetic gasBlock ⟨100, 50, 30⟩ _ rfl rfl).1]
    decide
  · rw [(gas_exact_arithmetic gasBlock ⟨100, 50, 30⟩ _ rfl rfl).2.1]
    decide

/-- C7 counterexample: on a registry miss the derived symbol keeps the
generic parameter's closing bracket, so generic parameters are not
stripped as the claim describes; the symbol for a Coin-wrapped type ends
in a bracket instead of being the bare inner name. -/
theorem token_registry_keeps_generics :
    getTokenInfoFromType "0x2::coin::Coin<0x9::aa::ABC>" = ⟨"ABC>", 6⟩
    ∧ strContains (getTokenInfoFromType "0x2::coin::Coin<0x9::aa::ABC>").symbol ">" = true
    ∧ ¬ (getTokenInfoFromType "0x2::coin::Coin<0x9::aa::ABC>").symbol = "ABC" := by
  decide

theorem tokenTable_symbol_pos (s : String) (ti : TokenInfo)
    (h : tokenTable s = some ti) : 0 < ti.symbol.length := by
  unfold tokenTable at h
  split at h
  · cases h; decide
  · split at h
    · cases h; decide
    · split at h
      · cases h; decide
      · split at h
        · cases h; decide
        · split at h
          · cases h; decide
          · cases h

/-- C7 amended: Token Registry resolve is total and never yields an
empty symbol; on a static-table miss the decimals default to 6 and the
symbol is derived from the last path segment uppercased, with the first
occurrence of _TOKEN and then of TOKEN removed (not only as a suffix,
and with generic parameters retained). -/
theorem token_registry_total (s : String) :
    0 < (getTokenInfoFromType s).symbol.length
    ∧ (tokenTable s = none → getTokenInfoFromType s = ⟨deriveTokenSymbol s, 6⟩) := by
  constructor
  · unfold getTokenInfoFromType
    cases h : tokenTable s with
    | some ti => exact tokenTable_symbol_pos s ti h
    | none =>
      simp only
      unfold deriveTokenSymbol
      set x := replaceFirst (replaceFirst (strOr (strToUpper ((strSplitOn s "::").getLastD "")) "TOKEN") "_TOKEN" "") "TOKEN" "" with hx
      by_cases hxe : x = ""
      · rw [strOr, if_pos hxe]
        decide
      · rw [strOr, if_neg hxe]
        exact strLength_pos x hxe
  · intro h
    unfold getTokenInfoFromType
    rw [h]

/-- Witness for C7 at a concrete non-table type. -/
theorem token_registry_total_witness :
    tokenTable "0x1::abc::XYZ" = none
    ∧ 0 < (getTokenInfoFromType "0x1::abc::XYZ").symbol.length
    ∧ getTokenInfoFromType "0x1::abc::XYZ" = ⟨deriveTokenSymbol "0x1::abc::XYZ", 6⟩ :=
  ⟨by decide, (token_registry_total "0x1::abc::XYZ").1,
   (token_registry_total "0x1::abc::XYZ").2 (by decide)⟩

/-- C6: when the object-lookup collaborator fails for every requested
object (each per-object fetch throws or times out, modelled as `none`),
the enrichment mapping degrades to empty, the engine still returns the
complete interpreted transaction of the unenriched block (no exception
escapes: the pipeline is total), and every NFT flag of the created and
transferred records is decided by the type-pattern rules alone. -/
theorem enrichment_total_failure (tb : TxBlock) (fetchObject : String → Option EnrichedObject)
    (h : ∀ objectId, fetchObject objectId = none) :
    enrichWithObjectData tb fetchObject = []
    ∧ fetchPipeline tb fetchObject = parseTransaction (withEnriched tb [])
    ∧ (fetchPipeline tb fetchObject).objectsCreated.map (fun o => o.isNFT)
        = tb.objectChanges.filterMap (fun c =>
            if c.kind == ChangeKind.created then some (isNFTObject c.objectType none) else none)
    ∧ (fetchPipeline tb fetchObject).objectsTransferred.map (fun t => t.isNFT)
        = tb.objectChanges.filterMap (fun c =>
            if c.kind == ChangeKind.transferred then some (isNFTObject c.objectType none) else none) := by
  have h1 : enrichWithObjectData tb fetchObject = [] := by
    unfold enrichWithObjectData
    simp only []
    split
    · rfl
    · exact filterMap_none_eq_nil _ _ (fun a _ => by rw [h a.objectId]; rfl)
  have h2 : fetchPipeline tb fetchObject = parseTransaction (withEnriched tb []) := by
    unfold fetchPipeline
    rw [h1]
  have hcreated : (parseTransaction (withEnriched tb [])).objectsCreated
      = tb.objectChanges.filterMap (fun c =>
          if c.kind == ChangeKind.created then some (mkCreatedRec [] c) else none) := rfl
  have htrans : (parseTransaction (withEnriched tb [])).objectsTransferred
      = tb.objectChanges.filterMap (fun c =>
          if c.kind == ChangeKind.transferred then some (mkTransferRec [] c) else none) := rfl
  refine ⟨h1, h2, ?_, ?_⟩
  · rw [h2, hcreated, List.map_filterMap]
    congr 1
    funext c
    by_cases hk : c.kind == ChangeKind.created <;> simp [hk, mkCreatedRec, assocGet]
  · rw [h2, htrans, List.map_filterMap]
    congr 1
    funext c
    by_cases hk : c.kind == ChangeKind.transferred <;> simp [hk, mkTransferRec, assocGet]

/-- Witness for C6: a collaborator that always fails on a concrete
one-created-object block still yields a parsed transaction whose only
created record is classified (not an NFT) from its type pattern alone. -/
theorem enrichment_total_failure_witness :
    enrichWithObjectData enrichFailBlock (fun _ => none) = []
    ∧ (fetchPipeline enrichFailBlock (fun _ => none)).objectsCreated.map (fun o => o.isNFT)
        = [isNFTObject (some "0xabc::thing::Widget") none] :=
  ⟨(enrichment_total_failure enrichFailBlock (fun _ => none) (fun _ => rfl)).1,
   by rw [(enrichment_total_failure enrichFailBlock (fun _ => none) (fun _ => rfl)).2.2.1]; decide⟩

/-- C1 counterexample: on the −1000000 / +992000 same-coin pair (within
one percent, different owners) the headline formats the send-side
magnitude 1.00, not the smaller absolute amount 0.992 (which the same
renderer would format as 0.99), refuting the claim that the formatted
amount is the smaller of the two. -/
theorem balance_pair_formats_send_side :
    (parseTransaction pairBlock).aiSummary
      = "\x7b\x7bUser A\x7d\x7d sends 1.00 USDC to \x7b\x7bUser B\x7d\x7d"
    ∧ jsToFixed (jsAbs (jsDivPow10 992000 6)) 2 = "0.99"
    ∧ ¬ (parseTransaction pairBlock).aiSummary
      = "\x7b\x7bUser A\x7d\x7d sends 0.99 USDC to \x7b\x7bUser B\x7d\x7d" := by
  decide

/-- C8 counterexample: one created object classified as an NFT (by its
type pattern) owned by a non-sender address, zero transfers, nothing for
the higher tiers — yet because the NFT has no resolved display name the
headline is the generic creation sentence, not the received-from-sender
phrasing. -/
theorem created_nft_without_name_generic :
    (parseTransaction namelessNftBlock).objectsCreated.map (fun o => o.isNFT) = [true]
    ∧ (parseTransaction namelessNftBlock).aiSummary = "\x7b\x7bUser A\x7d\x7d creates a NFT"
    ∧ strContains (parseTransaction namelessNftBlock).aiSummary "received" = false := by
  decide

/-- C3 counterexample: after the ten pseudonyms are exhausted, the
over-capacity address that is the literal string User A receives the
truncated-address fallback display User A, which collides with the
pseudonym assigned to the first address — refuting the no-collision part
of the claim. -/
theorem fallback_collides_with_pseudonym :
    ("0x00000000000001", "User A") ∈ (processAddresses overflowAddrs).assoc
    ∧ ("User A", "User A") ∈ (processAddresses overflowAddrs).assoc
    ∧ ¬ ("0x00000000000001" : String) = "User A"
    ∧ (processAddresses overflowAddrs).userIndex = 10 := by
  decide

/-!
Labeler invariant machinery for C3.
-/

theorem userLabelString_mem (i : Nat) (h : i < 10) :
    userLabelString i ∈ pseudonymLiterals := by
  interval_cases i <;> decide

theorem pseudonym_length (l : String) (h : l ∈ pseudonymLiterals) : l.length = 6 := by
  fin_cases h <;> decide

theorem string_mk_length (l : List Char) : (String.mk l).length = l.length := rfl

theorem truncate_length (a : String) (h : ¬ a.length ≤ 12) :
    (truncateAddress a).length = 13 := by
  unfold truncateAddress
  rw [if_neg h]
  rw [string_mk_length]
  have hlen : 12 < a.data.length := by
    have : a.length = a.data.length := rfl
    omega
  simp only [List.length_append, List.length_take, List.length_reverse,
    List.length_cons, List.length_nil]
  omega

theorem truncate_not_pseudonym (a : String) (ha : a ∉ pseudonymLiterals) :
    truncateAddress a ∉ pseudonymLiterals := by
  by_cases hlen : a.length ≤ 12
  · have : truncateAddress a = a := by
      unfold truncateAddress
      rw [if_pos hlen]
    rw [this]
    exact ha
  · intro hmem
    have h6 := pseudonym_length _ hmem
    rw [truncate_length a hlen] at h6
    omega

theorem labelInv_step (st : LabelState) (a : String)
    (ha : a ∉ pseudonymLiterals) (h : LabelInv st) :
    LabelInv ((getOrCreateUserLabel st a).1) := by
  unfold getOrCreateUserLabel
  by_cases hs : isSentinel a
  · rw [if_pos hs]
    exact h
  · rw [if_neg (by simp [hs])]
    cases hfind : assocGet st.assoc a with
    | some l => exact h
    | none =>
      dsimp only
      have hnotmem : a ∉ st.assoc.map Prod.fst := by
        intro hmem
        obtain ⟨e, he, hfst⟩ := List.mem_map.mp hmem
        exact assocGet_none_not_mem st.assoc a hfind e he hfst
      by_cases hidx : st.userIndex < userLabels.length
      · rw [if_pos hidx]
        have hidx10 : st.userIndex < 10 := by
          have : userLabels.length = 10 := by decide
          omega
        have hlbl : ("User " ++ userLabels.getD st.userIndex "") = userLabelString st.userIndex := rfl
        refine ⟨by simp only; omega, ?_, ?_, ?_, ?_⟩
        · rw [List.map_append, List.nodup_append]
          refine ⟨h.keys_nodup, by simp, ?_⟩
          simp only [List.map_cons, List.map_nil]
          intro x hx
          simp only [List.mem_singleton]
          intro heq
          rw [heq] at hx
          exact hnotmem hx
        · intro e he
          rcases List.mem_append.mp he with he | he
          · exact h.keys_not_pseudo e he
          · rw [List.mem_singleton] at he
            rw [he]
            exact ha
        · rw [List.filter_append, List.map_append, h.pseudo_labels]
          have hpass : (List.filter (fun e => decide (e.2 ∈ pseudonymLiterals))
              [(a, "User " ++ userLabels.getD st.userIndex "")])
              = [(a, "User " ++ userLabels.getD st.userIndex "")] := by
            rw [List.filter_cons]
            rw [hlbl]
            simp [userLabelString_mem st.userIndex hidx10]
          rw [hpass, List.range_succ, List.map_append]
          simp only [List.map_cons, List.map_nil]
          rw [hlbl]
        · intro e he hnp
          rcases List.mem_append.mp he with he | he
          · exact h.fallback_spec e he hnp
          · rw [List.mem_singleton] at he
            rw [he] at hnp
            simp only at hnp
            rw [hlbl] at hnp
            exact absurd (userLabelString_mem st.userIndex hidx10) hnp
      · rw [if_neg hidx]
        refine ⟨h.idx_le, ?_, ?_, ?_, ?_⟩
        · rw [List.map_append, List.nodup_append]
          refine ⟨h.keys_nodup, by simp, ?_⟩
          simp only [List.map_cons, List.map_nil]
          intro x hx
          simp only [List.mem_singleton]
          intro heq
          rw [heq] at hx
          exact hnotmem hx
        · intro e he
          rcases List.mem_append.mp he with he | he
          · exact h.keys_not_pseudo e he
          · rw [List.mem_singleton] at he
            rw [he]
            exact ha
        · rw [List.filter_append, List.map_append, h.pseudo_labels]
          have hfail : (List.filter (fun e => decide (e.2 ∈ pseudonymLiterals))
              [(a, truncateAddress a)]) = [] := by
            rw [List.filter_cons]
            simp [truncate_not_pseudonym a ha]
          rw [hfail]
          simp
        · intro e he hnp
          rcases List.mem_append.mp he with he | he
          · exact h.fallback_spec e he hnp
          · rw [List.mem_singleton] at he
            rw [he]

theorem labelInv_fold (addrs : List String) (st : LabelState)
    (ha : ∀ a ∈ addrs, a ∉ pseudonymLiterals) (h : LabelInv st) :
    LabelInv (addrs.foldl (fun st a => (getOrCreateUserLabel st a).1) st) := by
  induction addrs generalizing st with
  | nil => exact h
  | cons a t ih =>
    exact ih ((getOrCreateUserLabel st a).1)
      (fun x hx => ha x (List.mem_cons_of_mem a hx))
      (labelInv_step st a (ha a (List.mem_cons_self a t)) h)

theorem labelInv_empty : LabelInv ⟨[], 0⟩ := by
  refine ⟨by decide, by simp, by simp, rfl, by simp⟩

theorem labelInv_processAddresses (addrs : List String)
    (ha : ∀ a ∈ addrs, a ∉ pseudonymLiterals) :
    LabelInv (processAddresses addrs) :=
  labelInv_fold addrs ⟨[], 0⟩ ha labelInv_empty

theorem step_preserves_lookup (st : LabelState) (a k v : String)
    (h : assocGet st.assoc k = some v) :
    assocGet ((getOrCreateUserLabel st a).1).assoc k = some v := by
  unfold getOrCreateUserLabel
  by_cases hs : isSentinel a
  · rw [if_pos hs]
    exact h
  · rw [if_neg (by simp [hs])]
    cases hfind : assocGet st.assoc a with
    | some l => exact h
    | none =>
      dsimp only
      by_cases hidx : st.userIndex < userLabels.length
      · rw [if_pos hidx]
        exact assocGet_append_of_some _ _ _ _ h
      · rw [if_neg hidx]
        exact assocGet_append_of_some _ _ _ _ h

theorem fold_preserves_lookup (addrs : List String) (st : LabelState) (k v : String)
    (h : assocGet st.assoc k = some v) :
    assocGet ((addrs.foldl (fun st a => (getOrCreateUserLabel st a).1) st).assoc) k = some v := by
  induction addrs generalizing st with
  | nil => exact h
  | cons a t ih =>
    exact ih ((getOrCreateUserLabel st a).1) (step_preserves_lookup st a k v h)

theorem range_map_userLabelString_nodup (n : Nat) (h : n ≤ 10) :
    ((List.range n).map userLabelString).Nodup := by
  have h10 : ((List.range 10).map userLabelString).Nodup := by decide
  exact h10.sublist ((List.range_sublist.mpr h).map userLabelString)

/-- C3 amended: over any visitation sequence none of whose addresses is
itself one of the ten literal pseudonym strings, the labeler (a pure
function, hence deterministic) assigns pseudonyms injectively, in
first-encounter order starting from the head of the sequence (the
sender), drawn from the fixed ten-letter alphabet, never exceeding its
capacity; every other mapped address carries the truncated-address
fallback display, which never equals any assigned pseudonym.  (The
proviso is forced by the counterexample: an over-capacity address that is
literally the string User A receives itself as fallback.) -/
theorem addressLabels_spec (addrs : List String)
    (hp : ∀ a ∈ addrs, a ∉ pseudonymLiterals) :
    (∀ a la b lb, (a, la) ∈ (processAddresses addrs).assoc →
      (b, lb) ∈ (processAddresses addrs).assoc →
      la ∈ pseudonymLiterals → lb ∈ pseudonymLiterals → ¬ a = b → ¬ la = lb)
    ∧ (∀ a l, (a, l) ∈ (processAddresses addrs).assoc →
        l ∈ pseudonymLiterals ∨ (l = truncateAddress a ∧ l ∉ pseudonymLiterals))
    ∧ (∀ a l, (a, l) ∈ (processAddresses addrs).assoc → l ∉ pseudonymLiterals →
        ∀ b lb, (b, lb) ∈ (processAddresses addrs).assoc → lb ∈ pseudonymLiterals → ¬ l = lb)
    ∧ (processAddresses addrs).userIndex ≤ 10
    ∧ ((processAddresses addrs).assoc.filter (fun e => decide (e.2 ∈ pseudonymLiterals))).map Prod.snd
        = (List.range (processAddresses addrs).userIndex).map userLabelString
    ∧ (∀ s rest, addrs = s :: rest → isSentinel s = false →
        assocGet (processAddresses addrs).assoc s = some (userLabelString 0)) := by
  have hinv := labelInv_processAddresses addrs hp
  refine ⟨?_, ?_, ?_, hinv.idx_le, hinv.pseudo_labels, ?_⟩
  · intro a la b lb ha hb hla hlb hne heq
    have hfa : (a, la) ∈ (processAddresses addrs).assoc.filter
        (fun e => decide (e.2 ∈ pseudonymLiterals)) :=
      List.mem_filter.mpr ⟨ha, by simpa using hla⟩
    have hfb : (b, lb) ∈ (processAddresses addrs).assoc.filter
        (fun e => decide (e.2 ∈ pseudonymLiterals)) :=
      List.mem_filter.mpr ⟨hb, by simpa using hlb⟩
    have hnd : (((processAddresses addrs).assoc.filter
        (fun e => decide (e.2 ∈ pseudonymLiterals))).map Prod.snd).Nodup := by
      rw [hinv.pseudo_labels]
      exact range_map_userLabelString_nodup _ hinv.idx_le
    have hpair := List.inj_on_of_nodup_map hnd hfa hfb heq
    exact hne (congrArg Prod.fst hpair)
  · intro a l hm
    by_cases hl : l ∈ pseudonymLiterals
    · exact Or.inl hl
    · exact Or.inr ⟨hinv.fallback_spec (a, l) hm hl, hl⟩
  · intro a l _ hl b lb _ hlb heq
    rw [heq] at hl
    exact hl hlb
  · intro s rest hrw hsent
    subst hrw
    have hstep : (getOrCreateUserLabel ⟨[], 0⟩ s).1 = ⟨[(s, userLabelString 0)], 1⟩ := by
      unfold getOrCreateUserLabel
      rw [if_neg (by simp [hsent])]
      rfl
    have hget : assocGet ([(s, userLabelString 0)] : List (String × String)) s
        = some (userLabelString 0) := by
      simp [assocGet]
    unfold processAddresses
    rw [List.foldl_cons, hstep]
    exact fold_preserves_lookup rest ⟨[(s, userLabelString 0)], 1⟩ s (userLabelString 0) hget

/-- Witness for C3 at a concrete run: two long addresses and a sentinel,
the head receiving User A. -/
theorem addressLabels_spec_witness :
    (∀ a ∈ ["0x1111111111111101", "Shared", "0x1111111111111102"], a ∉ pseudonymLiterals)
    ∧ assocGet (processAddresses ["0x1111111111111101", "Shared", "0x1111111111111102"]).assoc
        "0x1111111111111101" = some (userLabelString 0) :=
  ⟨by decide,
   (addressLabels_spec ["0x1111111111111101", "Shared", "0x1111111111111102"] (by decide)).2.2.2.2.2
     "0x1111111111111101" ["Shared", "0x1111111111111102"] rfl (by decide)⟩

/-- C8 amended: a transaction with exactly one created object that is a
relevant NFT (classified as NFT and carrying a resolved display name that
is neither empty nor unknown-ish, with a non-placeholder type), owned by
a concrete non-sender address, zero transferred records, and nothing
matching any higher headline tier, renders the received-from-sender
headline.  (The relevance condition is forced by the counterexample: a
created NFT without a resolved name gets the generic creation sentence.) -/
theorem created_nft_received_headline (d : SummaryInput) (rec : ObjectChangeRec)
    (rc : RawObjectChange) (own : String) (md : NFTMetadata)
    (h1 : d.objectsTransferred = [])
    (h2 : tierBalance d = none)
    (h3 : d.objectsCreated = [rec])
    (h4 : rec.isNFT = true)
    (h5 : rec.nftMetadata = some md)
    (h6 : isRelevantNFT md.name rec.objectType = true)
    (h7 : d.rawObjectChanges.find? (fun c =>
        c.objectId == rec.objectId && c.kind == ChangeKind.created) = some rc)
    (h8 : ownerTruthy rc.owner = true)
    (h9 : getFullAddress rc.owner = own)
    (h10 : ¬ own = "") (h11 : ¬ own = "Unknown") (h12 : ¬ own = d.sender) :
    generateAISummary d =
      mark (getUserLabel d.addressToUser own) ++ " received " ++ md.name
        ++ " from " ++ mark (getUserLabel d.addressToUser d.sender) := by
  have hname : ¬ md.name = "" := by
    intro he
    unfold isRelevantNFT at h6
    rw [he] at h6
    simp at h6
  have htier1 : tierNftOrCoin d = none := by
    unfold tierNftOrCoin
    rw [h1]
    rfl
  have htier4 : tierOtherTransfer d = none := by
    unfold tierOtherTransfer
    rw [h1]
  have hfilter : List.filter (fun o =>
      o.isNFT && isRelevantNFT (mdName o.nftMetadata) o.objectType) [rec] = [rec] := by
    rw [List.filter_cons]
    rw [h4, h5]
    simp [mdName, h6]
  have htier5 : tierCreated d = some (mark (getUserLabel d.addressToUser own)
      ++ " received " ++ md.name ++ " from " ++ mark (getUserLabel d.addressToUser d.sender)) := by
    unfold tierCreated
    rw [h3]
    dsimp only
    rw [hfilter]
    dsimp only
    rw [List.foldl_cons, List.foldl_nil, h7]
    dsimp only
    rw [h8, h9]
    simp only [h10, h11, h12, decide_eq_true_eq, if_true, if_false, decide_not,
      Bool.not_false, Bool.not_true, Bool.and_self, Bool.true_and, Bool.and_true,
      decide_eq_false_iff_not, not_false_eq_true, ite_true, ite_false]
    simp [addToGroup, maxByCount, nftNameStr, mdName, strOr, h5, hname]
  unfold generateAISummary
  rw [htier1, h2, htier4, htier5]

/-- Witness for C8 at the concrete one-created-NFT input: the headline is
the received-from-sender sentence. -/
theorem created_nft_received_headline_witness :
    isRelevantNFT "Cool Cat #7" "0xabc::nft::Cool" = true
    ∧ generateAISummary receivedNftInput
      = "\x7b\x7bUser B\x7d\x7d received Cool Cat #7 from \x7b\x7bUser A\x7d\x7d" := by
  refine ⟨by decide, ?_⟩
  rw [created_nft_received_headline receivedNftInput receivedNftRec receivedNftRaw
    "0xdddddddddddddddddddddddddddddddddd02" { name := "Cool Cat #7" }
    rfl rfl rfl rfl rfl (by decide) rfl rfl rfl (by decide) (by decide) (by decide)]
  decide

/-- C1 amended: for a transaction without object transfers whose balance
changes are exactly a negative and a positive entry of the same coin type
with distinct address owners, magnitudes within one percent of the
send-side magnitude, and (for the native token) a send magnitude at or
above the 0.1 noise minimum, the headline renders the peer-to-peer send
sentence whose formatted amount is the send-side (negative entry's)
absolute magnitude — not necessarily the smaller of the two magnitudes.
(The counterexample forces the change from smaller to send-side.) -/
theorem balance_pair_headline (d : SummaryInput) (c1 c2 : BalanceChangeRec)
    (ct sa ra : String) (ti : TokenInfo)
    (h1 : d.objectsTransferred = [])
    (h4 : d.balanceChanges = [c1, c2])
    (h2 : effCoinType c1 = ct) (h3 : effCoinType c2 = ct)
    (hti : getTokenInfoFromType ct = ti)
    (h5 : c1.amount < 0) (h6 : 0 < c2.amount)
    (h7 : addrOwnerOf c1.owner = some sa) (h8 : addrOwnerOf c2.owner = some ra)
    (h9 : ¬ sa = ra)
    (hclose : jsLt (jsAbs (jsSub (jsAbs (jsDivPow10 c1.amount ti.decimals))
        (jsDivPow10 c2.amount ti.decimals)))
      (jsMul ⟨1, 100⟩ (jsAbs (jsDivPow10 c1.amount ti.decimals))) = true)
    (hnoise : ti.symbol = "SUI" →
      jsLt (jsAbs (jsDivPow10 c1.amount ti.decimals)) ⟨1, 10⟩ = false) :
    generateAISummary d =
      mark (getUserLabel d.addressToUser sa) ++ " sends "
        ++ jsToFixed (jsAbs (jsDivPow10 c1.amount ti.decimals)) (if ti.decimals = 6 then 2 else 4)
        ++ " " ++ ti.symbol ++ " to " ++ mark (getUserLabel d.addressToUser ra) := by
  have h5' : ¬ (0 < c1.amount) := by omega
  have h6' : ¬ (c2.amount < 0) := by omega
  have htier1 : tierNftOrCoin d = none := by
    unfold tierNftOrCoin
    rw [h1]
    rfl
  have hupd1 : btUpdate {} c1 = ⟨some c1, none⟩ := by
    unfold btUpdate
    simp [h5, h5']
  have hupd2 : btUpdate ⟨some c1, none⟩ c2 = ⟨some c1, some c2⟩ := by
    unfold btUpdate
    simp [h6, h6']
  have happly1 : btApply [] (effCoinType c1) c1 = [(ct, ⟨some c1, none⟩)] := by
    rw [h2]
    simp [btApply, hupd1]
  have happly2 : btApply [(ct, ⟨some c1, none⟩)] (effCoinType c2) c2
      = [(ct, ⟨some c1, some c2⟩)] := by
    rw [h3]
    simp [btApply, hupd2]
  have hbuild : buildTokenTransfers [c1, c2] = [(ct, ⟨some c1, some c2⟩)] := by
    unfold buildTokenTransfers
    rw [List.foldl_cons, List.foldl_cons, List.foldl_nil, happly1, happly2]
  have hsent : balancePairSentence d (ct, ⟨some c1, some c2⟩)
      = some (mark (getUserLabel d.addressToUser sa) ++ " sends "
        ++ jsToFixed (jsAbs (jsDivPow10 c1.amount ti.decimals)) (if ti.decimals = 6 then 2 else 4)
        ++ " " ++ ti.symbol ++ " to " ++ mark (getUserLabel d.addressToUser ra)) := by
    unfold balancePairSentence
    dsimp only
    rw [hti]
    have hguard : (decide (ti.symbol = "SUI")
        && jsLt (jsAbs (jsDivPow10 c1.amount ti.decimals)) ⟨1, 10⟩) = false := by
      by_cases hsym : ti.symbol = "SUI"
      · rw [hnoise hsym]
        simp
      · simp [hsym]
    rw [if_neg (by simp only [hguard]; exact Bool.false_ne_true)]
    rw [if_pos hclose]
    rw [h7, h8]
    dsimp only
    rw [if_neg h9]
  have htierB : tierBalance d = some (mark (getUserLabel d.addressToUser sa) ++ " sends "
      ++ jsToFixed (jsAbs (jsDivPow10 c1.amount ti.decimals)) (if ti.decimals = 6 then 2 else 4)
      ++ " " ++ ti.symbol ++ " to " ++ mark (getUserLabel d.addressToUser ra)) := by
    unfold tierBalance
    rw [h4]
    rw [if_neg (by simp)]
    rw [hbuild, List.findSome?_cons, hsent]
  unfold generateAISummary
  rw [htier1, htierB]

/-- Witness for C1 at the concrete −1000000 / +992000 USDC pair: the
rendered amount is the send-side magnitude 1.00. -/
theorem balance_pair_headline_witness :
    jsLt (jsAbs (jsSub (jsAbs (jsDivPow10 (-1000000) 6)) (jsDivPow10 992000 6)))
      (jsMul ⟨1, 100⟩ (jsAbs (jsDivPow10 (-1000000) 6))) = true
    ∧ generateAISummary pairInput
      = "\x7b\x7bUser A\x7d\x7d sends 1.00 USDC to \x7b\x7bUser B\x7d\x7d" := by
  refine ⟨by decide, ?_⟩
  rw [balance_pair_headline pairInput
    { coinType := some usdcType, amount := -1000000,
      owner := RawOwner.addressOwner "0xaaaaaaaaaaaaaaaaaaaaaaaaaaaaaaaaaa01" }
    { coinType := some usdcType, amount := 992000,
      owner := RawOwner.addressOwner "0xbbbbbbbbbbbbbbbbbbbbbbbbbbbbbbbbbb02" }
    usdcType "0xaaaaaaaaaaaaaaaaaaaaaaaaaaaaaaaaaa01" "0xbbbbbbbbbbbbbbbbbbbbbbbbbbbbbbbbbb02"
    ⟨"USDC", 6⟩ rfl rfl (by decide) (by decide) (by decide) (by decide) (by decide)
    (by decide) (by decide) (by decide) (by decide) (by decide)]
  decide
